import Mathlib

/-!
# Dive: capture loading and trace-stats coordination

A shallow embedding of `ui/capture_manager.cpp` (class `CaptureManager`): the file
classification and load pipeline `LoadFileImpl`, and the single-worker coordinator
(`LoadFile`, `GatherTraceStats`, `OnLoadFileDone`, `OnGatherTraceStatsDone`,
`FillCaptureStatsResult`); of `capture_service/command_utils.cc` (`LogCommand`,
`ReadCommandOutputNonBlocking`, `RunCommand`); of the path getters of
`dive_core/dive_file_container.h`; and of `NestingGuard` of `ui/event_utils.h`.

Conventions of the embedding:
* a `std::filesystem::path` / `std::string` is a list of characters (POSIX generic format,
  separator `/`);
* the filesystem is the function `fs_exists : Path → Option Bool` that gives what a call
  of the throwing `std::filesystem::exists(p)` returns, `none` when it throws;
* the data core (`Dive::DataCore`) is an explicit state `D` changed only by its
  `Load*`/`Parse*` member functions, which are parameters (`DataCoreOps`);
* Qt signals are appended to a log, `QMetaObject::invokeMethod(m_worker, job)` appends the
  job to the worker's FIFO queue;
* a run of an external process is given by what `popen`, `fileno`, the reads on the pipe
  and `pclose` return, and by the values of `Cancelled()` at the polls of the read loop;
* locks, log lines and wall-clock time are not modelled.
-/

namespace Dive

/-! ## Paths and strings -/

/-- A `std::filesystem::path` in generic format, as its sequence of characters. -/
abbrev Path := List Char

/-- The filename component `path::filename()`: everything after the last separator. -/
def filename (p : Path) : List Char :=
  (p.reverse.takeWhile (fun c => c != '/')).reverse

/-- The extension `path::extension()`: the substring of the filename that starts at its
rightmost period, unless the filename is `.` or `..`, has no period, or has its only
rightmost period as first character. -/
def extension (p : Path) : List Char :=
  let f := filename p
  if f = ['.'] ∨ f = ['.', '.'] then []
  else
    match f.reverse.dropWhile (fun c => c != '.') with
    | [] => []
    | [_] => []
    | _ :: _ :: _ => '.' :: (f.reverse.takeWhile (fun c => c != '.')).reverse

/-- The member `path::replace_extension(replacement)`: the existing extension is removed,
a period is appended when the replacement is non-empty and does not start with one, and
the replacement is appended. -/
def replace_extension (p : Path) (replacement : List Char) : Path :=
  let stem := p.take (p.length - (extension p).length)
  let dot := if replacement ≠ [] ∧ replacement.head? ≠ some '.' then ['.'] else []
  stem ++ dot ++ replacement

/-- Search of `std::string::rfind` downwards from position `n`. -/
def rfindFrom (s pat : List Char) : Nat → Option Nat
  | 0 => if pat.isPrefixOf s then some 0 else none
  | n + 1 => if pat.isPrefixOf (s.drop (n + 1)) then some (n + 1) else rfindFrom s pat n

/-- The member `std::string::rfind(pat)`: the highest position at which `pat` occurs in
`s`, `none` standing for `npos`. -/
def rfind (s pat : List Char) : Option Nat :=
  rfindFrom s pat s.length

/-- The member `std::string::replace(pos, len, r)`. -/
def replace (s : List Char) (pos len : Nat) (r : List Char) : List Char :=
  s.take pos ++ r ++ s.drop (pos + len)

/-- Modelled from the spec: the constant `Dive::kGfxrSuffix` of `capture_service/constants.h`
(not among the sources), the extension of the auxiliary (GFXR) capture file. -/
def kGfxrSuffix : List Char := ".gfxr".toList

/-! ## Types of `capture_manager.h` -/

/-- The enum `CaptureManager::LoadedFileType`. -/
inductive LoadedFileType
  | kUnknown
  | kDiveFile
  | kRdFile
  | kGfxrFile
  deriving DecidableEq, Repr

/-- The enum `CaptureManager::LoadFailureReason`. -/
inductive LoadFailureReason
  | kUnknown
  | kFileIoError
  | kCorruptData
  | kVersionError
  | kParseFailure
  | kUnsupportedFile
  | kGfxaAssetMissing
  deriving DecidableEq, Repr

/-- The enum `Dive::CaptureData::LoadResult`, by the cases of `ToLoadFailureReason`. -/
inductive LoadResult
  | kSuccess
  | kFileIoError
  | kCorruptData
  | kVersionError
  deriving DecidableEq, Repr

/-- The public signals of `CaptureManager`. The default of the `aux` argument of
`LoadingFailure` is the empty string. -/
inductive Signal
  | LoadingFailure (reason : LoadFailureReason) (reference_path : Path) (aux : List Char)
  | FileLoaded (file_type : LoadedFileType)
  | TraceStatsUpdated
  deriving DecidableEq, Repr

/-- The function `ToLoadFailureReason` of the anonymous namespace. -/
def ToLoadFailureReason : LoadResult → LoadFailureReason
  | .kSuccess => .kUnknown
  | .kFileIoError => .kFileIoError
  | .kCorruptData => .kCorruptData
  | .kVersionError => .kVersionError

/-! ## The data core collaborator -/

/-- The member functions of `Dive::DataCore` that `LoadFileImpl` calls, as state
transformers over the data core state `D`. -/
structure DataCoreOps (D : Type) where
  LoadDiveCaptureData : Path → D → LoadResult × D
  ParseDiveCaptureData : D → Bool × D
  LoadPm4CaptureData : Path → D → LoadResult × D
  ParsePm4CaptureData : D → Bool × D
  LoadGfxrCaptureData : Path → D → LoadResult × D
  ParseGfxrCaptureData : D → Bool × D

/-- A call made on the data core. -/
inductive DataCoreCall
  | LoadDiveCaptureData (file_name : Path)
  | ParseDiveCaptureData
  | LoadPm4CaptureData (file_name : Path)
  | ParsePm4CaptureData
  | LoadGfxrCaptureData (file_name : Path)
  | ParseGfxrCaptureData
  deriving DecidableEq, Repr

/-- A data core without state whose `Load*` calls all return `load_res` and whose `Parse*`
calls all return `parsed`. -/
def constantOps (load_res : LoadResult) (parsed : Bool) : DataCoreOps Unit :=
  { LoadDiveCaptureData := fun _ d => (load_res, d)
    ParseDiveCaptureData := fun d => (parsed, d)
    LoadPm4CaptureData := fun _ d => (load_res, d)
    ParsePm4CaptureData := fun d => (parsed, d)
    LoadGfxrCaptureData := fun _ d => (load_res, d)
    ParseGfxrCaptureData := fun d => (parsed, d) }

/-! ## `CaptureManager::LoadFileImpl` -/

/-- The asset path computed at lines 171-186 of `LoadFileImpl`: the last occurrence of
`_trim_trigger` in the path string is replaced by `_asset_file`, and the extension of
the result is replaced by `.gfxa`. -/
def asset_file_path (file_name : Path) : Path :=
  let trim_str := "_trim_trigger".toList
  let asset_str := "_asset_file".toList
  let potential_asset_name :=
    match rfind file_name trim_str with
    | some pos => replace file_name pos trim_str.length asset_str
    | none => file_name
  replace_extension potential_asset_name ".gfxa".toList

/-- Outcome of the classification part of `LoadFileImpl` (lines 161-225): the early
return for a missing asset file, the value of the local `file_type`, or the exception of
a call of `std::filesystem::exists`, which nothing catches and which leaves the function. -/
inductive Classification
  | asset_missing (asset_file_path : Path)
  | classified (file_type : LoadedFileType)
  | threw
  deriving DecidableEq, Repr

/-- Lines 209-225 of `LoadFileImpl`: the choice of `file_type` from the two flags. -/
def FileTypeOf (found_gfxr_file found_rd_file : Bool) : LoadedFileType :=
  if found_gfxr_file && found_rd_file then .kDiveFile
  else if found_gfxr_file then .kGfxrFile
  else if found_rd_file then .kRdFile
  else .kUnknown

/-- Lines 161-225 of `LoadFileImpl`: the extension tests, the asset and `.rd` existence
checks, and the choice of `file_type`. `fs_exists p` is what the call
`std::filesystem::exists(p)` returns, and `none` when it throws (the status of `p` cannot
be obtained). The two calls are made only for a path with the extension `kGfxrSuffix`,
the second only when the first returned true. -/
def Classify (fs_exists : Path → Option Bool) (file_name : Path) : Classification :=
  let file_extension := extension file_name
  let found_gfxr_file := decide (file_extension = kGfxrSuffix)
  let found_rd_file :=
    decide (file_extension = ".dive".toList) || decide (file_extension = ".rd".toList)
  if found_gfxr_file then
    match fs_exists (asset_file_path file_name) with
    | none => .threw
    | some asset_file_exists =>
      if !asset_file_exists then .asset_missing (asset_file_path file_name)
      else
        match fs_exists (replace_extension file_name ".rd".toList) with
        | none => .threw
        | some rd_file_exists =>
          let found_rd_file := if rd_file_exists then true else found_rd_file
          .classified (FileTypeOf found_gfxr_file found_rd_file)
  else .classified (FileTypeOf found_gfxr_file found_rd_file)

/-- What one call of `LoadFileImpl` does: the type it returns (`none` when an exception
leaves the function instead), the signals it emits, the calls it makes on the data core,
and the data core state it leaves. -/
structure LoadFileImplResult (D : Type) where
  file_type : Option LoadedFileType
  signals : List Signal
  calls : List DataCoreCall
  data_core : D

/-- The function `CaptureManager::LoadFileImpl` (its `context` argument is not used by the
body). When a call of `std::filesystem::exists` throws, the exception leaves the function
before any signal is emitted and before any call on the data core. -/
def LoadFileImpl {D : Type} (fs_exists : Path → Option Bool) (ops : DataCoreOps D)
    (capture_file : Path) (data_core : D) : LoadFileImplResult D :=
  let file_name := capture_file
  match Classify fs_exists file_name with
  | .threw =>
    { file_type := none
      signals := []
      calls := []
      data_core := data_core }
  | .asset_missing asset =>
    { file_type := some .kUnknown
      signals := [.LoadingFailure .kGfxaAssetMissing file_name asset]
      calls := []
      data_core := data_core }
  | .classified .kUnknown =>
    { file_type := some .kUnknown
      signals := [.LoadingFailure .kUnsupportedFile file_name []]
      calls := []
      data_core := data_core }
  | .classified .kDiveFile =>
    let (load_res, d1) := ops.LoadDiveCaptureData file_name data_core
    if load_res ≠ .kSuccess then
      { file_type := some .kUnknown
        signals := [.LoadingFailure (ToLoadFailureReason load_res) file_name []]
        calls := [.LoadDiveCaptureData file_name]
        data_core := d1 }
    else
      let (parsed, d2) := ops.ParseDiveCaptureData d1
      if !parsed then
        { file_type := some .kUnknown
          signals := [.LoadingFailure .kParseFailure file_name []]
          calls := [.LoadDiveCaptureData file_name, .ParseDiveCaptureData]
          data_core := d2 }
      else
        { file_type := some .kDiveFile
          signals := []
          calls := [.LoadDiveCaptureData file_name, .ParseDiveCaptureData]
          data_core := d2 }
  | .classified .kRdFile =>
    let (load_res, d1) := ops.LoadPm4CaptureData file_name data_core
    if load_res ≠ .kSuccess then
      { file_type := some .kUnknown
        signals := [.LoadingFailure (ToLoadFailureReason load_res) file_name []]
        calls := [.LoadPm4CaptureData file_name]
        data_core := d1 }
    else
      let (parsed, d2) := ops.ParsePm4CaptureData d1
      if !parsed then
        { file_type := some .kUnknown
          signals := [.LoadingFailure .kParseFailure file_name []]
          calls := [.LoadPm4CaptureData file_name, .ParsePm4CaptureData]
          data_core := d2 }
      else
        { file_type := some .kRdFile
          signals := []
          calls := [.LoadPm4CaptureData file_name, .ParsePm4CaptureData]
          data_core := d2 }
  | .classified .kGfxrFile =>
    let (load_res, d1) := ops.LoadGfxrCaptureData file_name data_core
    if load_res ≠ .kSuccess then
      { file_type := some .kUnknown
        signals := [.LoadingFailure (ToLoadFailureReason load_res) file_name []]
        calls := [.LoadGfxrCaptureData file_name]
        data_core := d1 }
    else
      let (parsed, d2) := ops.ParseGfxrCaptureData d1
      if !parsed then
        { file_type := some .kUnknown
          signals := [.LoadingFailure .kParseFailure file_name []]
          calls := [.LoadGfxrCaptureData file_name, .ParseGfxrCaptureData]
          data_core := d2 }
      else
        { file_type := some .kGfxrFile
          signals := []
          calls := [.LoadGfxrCaptureData file_name, .ParseGfxrCaptureData]
          data_core := d2 }

/-! ## The coordinator: `CaptureManager` and its worker -/

/-- A job posted to the worker object with `QMetaObject::invokeMethod`: the lambda of
`LoadFile` with its captured path, or the lambda of `GatherTraceStats` with its captured
copy of the stats context. -/
inductive Job
  | load (capture_file : Path)
  | stats (context : Nat)
  deriving DecidableEq, Repr

/-- A job the worker has run to its end, a load job with the type that its `LoadFileImpl`
returned. -/
inductive JobOutcome
  | load (capture_file : Path) (file_type : LoadedFileType)
  | stats (context : Nat)
  deriving DecidableEq, Repr

/-- Modelled from the spec: `Dive::SimpleContext` of `dive_core/context.h` (not among the
sources), a shared cancellation token. The tokens created so far are the positions of
`contexts`, each with its cancelled flag; a `SimpleContext` value is `none` when
`IsNull()` and `some c` when it shares token `c`.

The structure holds the members of `CaptureManager` (after `Start`, so that the worker
exists and `m_capture_stats` is allocated), the state it shares with the worker
(`data_core`, `contexts`, `worker_queue`), and three logs: the jobs dispatched, the jobs
completed and the signals emitted. -/
structure CaptureManager (Stats D : Type) where
  m_loading_in_progress : Bool
  m_working : Bool
  m_pending_capture_file : Option Path
  m_capture_stats_context : Option Nat
  m_capture_stats : Stats
  data_core : D
  contexts : List Bool
  worker_queue : List Job
  dispatched : List Job
  completed : List JobOutcome
  signals : List Signal

namespace CaptureManager

variable {Stats D : Type}

/-- The coordinator after construction and `Start(data_core)`. -/
def init [Inhabited Stats] (data_core : D) : CaptureManager Stats D :=
  { m_loading_in_progress := false
    m_working := false
    m_pending_capture_file := none
    m_capture_stats_context := none
    m_capture_stats := default
    data_core := data_core
    contexts := []
    worker_queue := []
    dispatched := []
    completed := []
    signals := [] }

/-- Modelled from the spec: `Context::Cancelled()`, the poll of token `c`. -/
def Cancelled (s : CaptureManager Stats D) (c : Nat) : Bool :=
  s.contexts.getD c false

/-- Modelled from the spec: `Cancel()` on a context that is not null, which marks its
token cancelled; a null context is left alone (the guard `!context.IsNull()`). -/
def CancelIfNotNull (context : Option Nat) (contexts : List Bool) : List Bool :=
  match context with
  | some c => contexts.set c true
  | none => contexts

/-- The statement `if (!m_capture_stats_context.IsNull()) m_capture_stats_context->Cancel();`
of `LoadFile` and `GatherTraceStats`. -/
def CancelStatsContext (s : CaptureManager Stats D) : CaptureManager Stats D :=
  { s with contexts := CancelIfNotNull s.m_capture_stats_context s.contexts }

/-- The call `QMetaObject::invokeMethod(m_worker, job)`: the job is queued on the worker. -/
def invokeMethod (job : Job) (s : CaptureManager Stats D) : CaptureManager Stats D :=
  { s with worker_queue := s.worker_queue ++ [job], dispatched := s.dispatched ++ [job] }

/-- Emission of a signal. -/
def emit (sig : Signal) (s : CaptureManager Stats D) : CaptureManager Stats D :=
  { s with signals := s.signals ++ [sig] }

/-- The member `CaptureManager::LoadFile`. -/
def LoadFile (capture_file : Path) (s : CaptureManager Stats D) : CaptureManager Stats D :=
  let s := CancelStatsContext s
  let s := { s with m_loading_in_progress := true }
  if s.m_working then
    { s with m_pending_capture_file := some capture_file }
  else
    invokeMethod (.load capture_file) { s with m_working := true }

/-- The slot `CaptureManager::OnGatherTraceStatsDone`. -/
def OnGatherTraceStatsDone (s : CaptureManager Stats D) : CaptureManager Stats D :=
  let s := { s with m_working := false }
  if s.m_pending_capture_file.isNone then emit .TraceStatsUpdated s else s

/-- The slot `CaptureManager::OnLoadFileDone`. -/
def OnLoadFileDone (file_type : LoadedFileType) (s : CaptureManager Stats D) :
    CaptureManager Stats D :=
  let s := { s with m_working := false, m_loading_in_progress := false }
  let s :=
    match s.m_pending_capture_file with
    | some capture_file => LoadFile capture_file { s with m_pending_capture_file := none }
    | none => s
  emit (.FileLoaded file_type) s

/-- The member `CaptureManager::GatherTraceStats`. `SimpleContext::Create()` allocates a
fresh, not cancelled token. -/
def GatherTraceStats (s : CaptureManager Stats D) : CaptureManager Stats D :=
  if s.m_working then s
  else
    let s := { s with m_working := true }
    let s := CancelStatsContext s
    let c := s.contexts.length
    let s := { s with contexts := s.contexts ++ [false], m_capture_stats_context := some c }
    invokeMethod (.stats c) s

/-- The member `CaptureManager::FillCaptureStatsResult`: the value written to `out`, and
the coordinator after the call. -/
def FillCaptureStatsResult [Inhabited Stats] (s : CaptureManager Stats D) :
    Stats × CaptureManager Stats D :=
  if s.m_working then (default, s) else (s.m_capture_stats, s)

/-- What the worker thread meets while it runs one job to its end: the answers of
`std::filesystem::exists` (in a job that runs to its end no call of it throws), the
behaviour of the data core, and the statistics that `TraceStats::GatherTraceStats` leaves
in `*m_capture_stats`. -/
structure WorkerEnv (Stats D : Type) where
  fs_exists : Path → Bool
  ops : DataCoreOps D
  gathered : Stats

/-- The function `std::filesystem::exists` as the worker meets it in a job that runs to its
end: it returns and does not throw. -/
def WorkerEnv.filesystem {Stats D : Type} (env : WorkerEnv Stats D) : Path → Option Bool :=
  fun p => some (env.fs_exists p)

/-- The worker runs the oldest queued job to its end and the completion slot runs on the
coordinator: for the lambda of `LoadFile`, `LoadFileImpl` then `LoadFileDone(file_type)`;
for the lambda of `GatherTraceStats`, `GatherTraceStatsImpl` then `GatherTraceStatsDone()`.
With no job queued nothing happens. A load job in which `LoadFileImpl` throws does not run
to its end and `LoadFileDone` is not emitted; with the answers of `env.filesystem` this does
not occur. -/
def WorkerCompletes (env : WorkerEnv Stats D) (s : CaptureManager Stats D) :
    CaptureManager Stats D :=
  match s.worker_queue with
  | [] => s
  | .load capture_file :: rest =>
    let r := LoadFileImpl env.filesystem env.ops capture_file s.data_core
    match r.file_type with
    | none => s
    | some file_type =>
      OnLoadFileDone file_type
        { s with
          worker_queue := rest
          data_core := r.data_core
          signals := s.signals ++ r.signals
          completed := s.completed ++ [.load capture_file file_type] }
  | .stats context :: rest =>
    OnGatherTraceStatsDone
      { s with
        worker_queue := rest
        m_capture_stats := env.gathered
        completed := s.completed ++ [.stats context] }

/-- A sequence of calls `LoadFile(p1) ... LoadFile(pk)`, in order. -/
def LoadFiles (paths : List Path) (s : CaptureManager Stats D) : CaptureManager Stats D :=
  paths.foldl (fun s capture_file => LoadFile capture_file s) s

/-- One step of a run of the coordinator. -/
inductive Event (Stats D : Type)
  | LoadFile (capture_file : Path)
  | GatherTraceStats
  | WorkerCompletes (env : WorkerEnv Stats D)

/-- The effect of one event. -/
def step (s : CaptureManager Stats D) : Event Stats D → CaptureManager Stats D
  | .LoadFile capture_file => LoadFile capture_file s
  | .GatherTraceStats => GatherTraceStats s
  | .WorkerCompletes env => WorkerCompletes env s

/-- The coordinator after a run, a sequence of events from the initial state. -/
def run [Inhabited Stats] (data_core : D) (events : List (Event Stats D)) :
    CaptureManager Stats D :=
  events.foldl step (init data_core)

/-- A worker environment with the given files, a data core that accepts every file, and
the given statistics as result of a stats job. -/
def simpleEnv (files : List Path) (gathered : Nat) : WorkerEnv Nat Unit :=
  { fs_exists := fun p => decide (p ∈ files)
    ops := constantOps .kSuccess true
    gathered := gathered }

/-- The job that a completed job was. -/
def JobOutcome.job : JobOutcome → Job
  | .load capture_file _ => .load capture_file
  | .stats context => .stats context

/-- The payloads of the `FileLoaded` signals of a signal log, in order. -/
def fileLoadedTypes : List Signal → List LoadedFileType
  | [] => []
  | .FileLoaded t :: rest => t :: fileLoadedTypes rest
  | _ :: rest => fileLoadedTypes rest

/-- The types returned by the completed load jobs of a completion log, in order. -/
def completedLoadTypes : List JobOutcome → List LoadedFileType
  | [] => []
  | .load _ t :: rest => t :: completedLoadTypes rest
  | _ :: rest => completedLoadTypes rest

/-- The invariant of the coordinator over its runs: at most one job is queued on the
worker, `m_working` tells whether one is, the dispatch log is the completed jobs followed
by the queued ones, a queued stats job shares the token of `m_capture_stats_context`, that
token has been created, and the `FileLoaded` signals are the results of the completed
load jobs. -/
structure Inv (s : CaptureManager Stats D) : Prop where
  queue_le : s.worker_queue.length ≤ 1
  working_iff : s.m_working = true ↔ s.worker_queue.length = 1
  log : s.dispatched = s.completed.map JobOutcome.job ++ s.worker_queue
  stats_ctx : ∀ c, Job.stats c ∈ s.worker_queue → s.m_capture_stats_context = some c
  ctx_lt : ∀ c, s.m_capture_stats_context = some c → c < s.contexts.length
  loaded : fileLoadedTypes s.signals = completedLoadTypes s.completed

end CaptureManager

/-! ## Further path functions -/

/-- The member `path::remove_filename()`: the path up to and including its last separator,
the directory part of the path. -/
def remove_filename (p : Path) : Path :=
  (p.reverse.dropWhile (fun c => c != '/')).reverse

/-! ## The steps of a recognized type -/

/-- The `Load*CaptureData` member that the `switch` of `LoadFileImpl` calls for a
recognized type (for `kUnknown` there is none, and the data core is left alone). -/
def LoadStep {D : Type} (ops : DataCoreOps D) : LoadedFileType → Path → D → LoadResult × D
  | .kDiveFile => ops.LoadDiveCaptureData
  | .kRdFile => ops.LoadPm4CaptureData
  | .kGfxrFile => ops.LoadGfxrCaptureData
  | .kUnknown => fun _ d => (.kSuccess, d)

/-- The `Parse*CaptureData` member that the `switch` of `LoadFileImpl` calls for a
recognized type. -/
def ParseStep {D : Type} (ops : DataCoreOps D) : LoadedFileType → D → Bool × D
  | .kDiveFile => ops.ParseDiveCaptureData
  | .kRdFile => ops.ParsePm4CaptureData
  | .kGfxrFile => ops.ParseGfxrCaptureData
  | .kUnknown => fun d => (true, d)

/-- The entry of the call log for the Load step of a type. -/
def LoadCall : LoadedFileType → Path → List DataCoreCall
  | .kDiveFile, p => [.LoadDiveCaptureData p]
  | .kRdFile, p => [.LoadPm4CaptureData p]
  | .kGfxrFile, p => [.LoadGfxrCaptureData p]
  | .kUnknown, _ => []

/-- The entry of the call log for the Parse step of a type. -/
def ParseCall : LoadedFileType → List DataCoreCall
  | .kDiveFile => [.ParseDiveCaptureData]
  | .kRdFile => [.ParsePm4CaptureData]
  | .kGfxrFile => [.ParseGfxrCaptureData]
  | .kUnknown => []

/-- A data core whose state is the number of calls made on it, whose `Load*` calls
return `kSuccess` and whose `Parse*` calls return `true`. -/
def countingOps : DataCoreOps Nat :=
  { LoadDiveCaptureData := fun _ d => (.kSuccess, d + 1)
    ParseDiveCaptureData := fun d => (true, d + 1)
    LoadPm4CaptureData := fun _ d => (.kSuccess, d + 1)
    ParsePm4CaptureData := fun d => (true, d + 1)
    LoadGfxrCaptureData := fun _ d => (.kSuccess, d + 1)
    ParseGfxrCaptureData := fun d => (true, d + 1) }

/-! ## `capture_service/command_utils.cc` -/

/-- The codes of `absl::StatusCode` that `command_utils.cc` produces. -/
inductive StatusCode
  | kCancelled
  | kUnknown
  | kInternal
  deriving DecidableEq, Repr

/-- A value of `absl::StatusOr<std::string>`: the string, or a status with code and
message. -/
inductive StatusOr
  | ok (value : List Char)
  | error (code : StatusCode) (message : List Char)
  deriving DecidableEq, Repr

/-- The test `absl::ascii_isspace`: space, `\t`, `\n`, `\v`, `\f`, `\r`. -/
def ascii_isspace (c : Char) : Bool :=
  c == ' ' || c == Char.ofNat 9 || c == Char.ofNat 10 || c == Char.ofNat 11 ||
    c == Char.ofNat 12 || c == Char.ofNat 13

/-- The function `absl::StripAsciiWhitespace`: leading and trailing ASCII whitespace is
removed. -/
def StripAsciiWhitespace (s : List Char) : List Char :=
  ((s.dropWhile ascii_isspace).reverse.dropWhile ascii_isspace).reverse

/-- The error message of `LogCommand`, the `absl::StrFormat` of the command, the return
code in decimal and the output. -/
def CommandFailedMessage (command : List Char) (ret : Int) (output : List Char) : List Char :=
  "Command `".toList ++ command ++ "` failed with return code ".toList ++ (toString ret).toList
    ++ ", error: ".toList ++ output ++ [Char.ofNat 10]

/-- The function `LogCommand` (the debug and error log lines are not modelled). -/
def LogCommand (command output : List Char) (ret : Int) : StatusOr :=
  if ret ≠ 0 then .error .kUnknown (CommandFailedMessage command ret output)
  else .ok output

/-- What one `read` on the pipe delivers: `data chunk` is `bytes_read = chunk.length`
bytes, `would_block` is `-1` with `errno` `EAGAIN` or `EWOULDBLOCK`, `eof` is
`bytes_read = 0`, and `error errno` is `-1` with another `errno`. -/
inductive ReadResult
  | data (chunk : List Char)
  | would_block
  | eof
  | error (errno : Int)
  deriving DecidableEq, Repr

/-- How a call of `ReadCommandOutputNonBlocking` ended: the status it returned and the
number of `read` calls it made. -/
structure ReadLoopResult where
  result : StatusOr
  reads : Nat
  deriving DecidableEq, Repr

/-- The end of `ReadCommandOutputNonBlocking` after its loop: the output is stripped and
passed with `status` to `LogCommand`. -/
def ReadLoopEnd (command output : List Char) (status : Int) (reads : Nat) : ReadLoopResult :=
  { result := LogCommand command (StripAsciiWhitespace output) status, reads := reads }

/-- The `while (true)` loop of `ReadCommandOutputNonBlocking`, at its iteration `i` (so
after `i` reads) with the bytes `output` appended so far. `cancelled i` is the value of
`context->Cancelled()` polled at iteration `i`, and the list holds what the coming reads
deliver. The result is `none` when the list ends before the loop does. The sleep after a
`would_block` is not modelled. -/
def ReadLoop (command : List Char) (cancelled : Nat → Bool) :
    List ReadResult → Nat → List Char → Option ReadLoopResult
  | [], i, _ =>
    if cancelled i then some { result := .error .kCancelled "cancelled".toList, reads := i }
    else none
  | r :: rest, i, output =>
    if cancelled i then some { result := .error .kCancelled "cancelled".toList, reads := i }
    else
      match r with
      | .data chunk =>
        if 0 < chunk.length then ReadLoop command cancelled rest (i + 1) (output ++ chunk)
        else some (ReadLoopEnd command output 0 (i + 1))
      | .would_block => ReadLoop command cancelled rest (i + 1) output
      | .eof => some (ReadLoopEnd command output 0 (i + 1))
      | .error errno => some (ReadLoopEnd command output errno (i + 1))

/-- The function `ReadCommandOutputNonBlocking`. -/
def ReadCommandOutputNonBlocking (command : List Char) (cancelled : Nat → Bool)
    (reads : List ReadResult) : Option ReadLoopResult :=
  ReadLoop command cancelled reads 0 []

/-- The conversion `std::string(buf)` of the buffer that `fgets` filled: the bytes before
the first NUL byte. -/
def cstring (buf : List Char) : List Char :=
  buf.takeWhile (fun c => c != Char.ofNat 0)

/-- The loop `while (fgets(buf, 128, pipe) != nullptr) output += std::string(buf)` of
`RunCommand` on the blocking pipe. Here a `data chunk` is the bytes that one call of
`fgets` stores in `buf`, of which `std::string(buf)` keeps those before the first NUL
byte; a read that would block waits for the next result; end of stream or an error makes
`fgets` return `nullptr` and ends the loop. The result is `none` when the list ends before
the loop does. -/
def FgetsLoop : List ReadResult → List Char → Option (List Char)
  | [], _ => none
  | .data chunk :: rest, output =>
    if 0 < chunk.length then FgetsLoop rest (output ++ cstring chunk) else some output
  | .would_block :: rest, output => FgetsLoop rest output
  | .eof :: _, output => some output
  | .error _ :: _, output => some output

/-- One run of a command: whether `popen` returned a pipe, whether the context is null,
whether `fileno` returned a descriptor, the polls of `Cancelled()`, what the reads on the
pipe deliver, and the value that `pclose` returns. -/
structure ProcessRun where
  popen_ok : Bool
  context_null : Bool
  fileno_ok : Bool
  cancelled : Nat → Bool
  reads : List ReadResult
  pclose_status : Int

/-- How a call of `RunCommand` ended: the status it returned, the number of reads of the
non-blocking loop, and whether `pclose` was called. -/
structure RunCommandResult where
  result : StatusOr
  reads : Nat
  pclose_called : Bool
  deriving DecidableEq, Repr

/-- The function `RunCommand`. -/
def RunCommand (command : List Char) (run : ProcessRun) : Option RunCommandResult :=
  if !run.popen_ok then
    some { result := .error .kInternal "Popen call failed\n".toList
           reads := 0
           pclose_called := false }
  else if !run.context_null && run.fileno_ok then
    match ReadCommandOutputNonBlocking command run.cancelled run.reads with
    | some r => some { result := r.result, reads := r.reads, pclose_called := true }
    | none => none
  else
    match FgetsLoop run.reads [] with
    | some output =>
      some { result := LogCommand command (StripAsciiWhitespace output) run.pclose_status
             reads := 0
             pclose_called := true }
    | none => none

/-- A read result after which both read loops go on: a chunk of at least one byte, or
`would_block`. -/
def ReadResult.continues : ReadResult → Bool
  | .data chunk => 0 < chunk.length
  | .would_block => true
  | _ => false

/-! ## `dive_core/dive_file_container.h` -/

/-- The path members of `Dive::DiveFileContainer`. -/
structure DiveFileContainer where
  m_capture_dir : Path
  m_temp_dir : Path
  m_source_file_path : Path
  m_main_file_path : Path
  m_rd_file_path : Path
  m_gfxa_file_path : Path
  m_gfxr_file_path : Path
  deriving DecidableEq, Repr

namespace DiveFileContainer

/-- The member `GetGfxrFilePath`. -/
def GetGfxrFilePath (c : DiveFileContainer) : Path := c.m_gfxr_file_path

/-- The member `GetGfxaFilePath`, whose body returns `m_gfxr_file_path`. -/
def GetGfxaFilePath (c : DiveFileContainer) : Path := c.m_gfxr_file_path

/-- The member `GetRdFilePath`. -/
def GetRdFilePath (c : DiveFileContainer) : Path := c.m_rd_file_path

end DiveFileContainer

/-! ## `ui/event_utils.h` -/

/-- The struct `NestingGuard::Flag`. -/
structure NestingGuard.Flag where
  active : Bool
  deriving DecidableEq, Repr

/-- The class `NestingGuard`: its members apart from the reference `m_flag`, which is the
flag passed along with the guard. -/
structure NestingGuard where
  m_already_active : Bool
  deriving DecidableEq, Repr

namespace NestingGuard

/-- The flag as default-initialised: `active = false`. -/
def Flag.init : Flag := { active := false }

/-- The constructor `NestingGuard(Flag& flag)`: the guard, and the flag after it. -/
def construct (flag : Flag) : NestingGuard × Flag :=
  let m_already_active := flag.active
  if !m_already_active then ({ m_already_active := m_already_active }, { flag with active := true })
  else ({ m_already_active := m_already_active }, flag)

/-- The destructor `~NestingGuard()`: the flag after it. -/
def destroy (g : NestingGuard) (flag : Flag) : Flag :=
  if !g.m_already_active then { flag with active := false } else flag

/-- The member `AlreadyActive`. -/
def AlreadyActive (g : NestingGuard) : Bool := g.m_already_active

/-- A step of a nested use of guards on one flag: a guard is constructed, or the guard
constructed last among those alive is destroyed. -/
inductive Op
  | enter
  | leave
  deriving DecidableEq, Repr

/-- The flag and the guards alive, innermost first. -/
structure Scope where
  flag : Flag
  alive : List NestingGuard
  deriving DecidableEq, Repr

/-- The effect of one step; `leave` with no guard alive is not a step of a nested use and
changes nothing. -/
def Scope.step (s : Scope) : Op → Scope
  | .enter => { flag := (construct s.flag).2, alive := (construct s.flag).1 :: s.alive }
  | .leave =>
    match s.alive with
    | [] => s
    | g :: rest => { flag := destroy g s.flag, alive := rest }

/-- The scope after a sequence of steps from an inactive flag with no guard. -/
def Scope.run (ops : List Op) : Scope :=
  ops.foldl Scope.step { flag := Flag.init, alive := [] }

/-- The values of `AlreadyActive()` of the guards alive, outermost first. -/
def Scope.reports (s : Scope) : List Bool :=
  (s.alive.map AlreadyActive).reverse

end NestingGuard

/-! ## Cancelled stats jobs -/

/-- An invariant of the coordinator over its runs: while a stats job whose token is
cancelled is queued on the worker, the pending slot is filled. -/
def CaptureManager.CancelledStatsHasPending {Stats D : Type} (s : CaptureManager Stats D) :
    Prop :=
  ∀ c, Job.stats c ∈ s.worker_queue → s.Cancelled c = true →
    s.m_pending_capture_file.isSome = true

/-! # Theorems -/

namespace CaptureManager

variable {Stats D : Type}

/-! ## Unfolding lemmas for the coordinator steps -/

theorem CancelIfNotNull_idem (c : Option Nat) (l : List Bool) :
    CancelIfNotNull c (CancelIfNotNull c l) = CancelIfNotNull c l := by
  cases c <;> simp [CancelIfNotNull, List.set_set]

theorem CancelIfNotNull_length (c : Option Nat) (l : List Bool) :
    (CancelIfNotNull c l).length = l.length := by
  cases c <;> simp [CancelIfNotNull]

theorem LoadFile_of_working (p : Path) (s : CaptureManager Stats D) (h : s.m_working = true) :
    LoadFile p s =
      { s with
        contexts := CancelIfNotNull s.m_capture_stats_context s.contexts
        m_loading_in_progress := true
        m_pending_capture_file := some p } := by
  simp [LoadFile, CancelStatsContext, h]

theorem LoadFile_of_idle (p : Path) (s : CaptureManager Stats D) (h : s.m_working = false) :
    LoadFile p s =
      { s with
        contexts := CancelIfNotNull s.m_capture_stats_context s.contexts
        m_loading_in_progress := true
        m_working := true
        worker_queue := s.worker_queue ++ [.load p]
        dispatched := s.dispatched ++ [.load p] } := by
  simp [LoadFile, CancelStatsContext, invokeMethod, h]

theorem LoadFile_LoadFile_of_working (p q : Path) (s : CaptureManager Stats D)
    (h : s.m_working = true) : LoadFile q (LoadFile p s) = LoadFile q s := by
  have hw : (LoadFile p s).m_working = true := by
    rw [LoadFile_of_working p s h]; exact h
  rw [LoadFile_of_working q _ hw, LoadFile_of_working p s h, LoadFile_of_working q s h]
  simp [CancelIfNotNull_idem]

theorem LoadFiles_frame (ps : List Path) (s : CaptureManager Stats D) (h : s.m_working = true) :
    (LoadFiles ps s).m_working = true ∧ (LoadFiles ps s).dispatched = s.dispatched ∧
      (LoadFiles ps s).worker_queue = s.worker_queue ∧ (LoadFiles ps s).signals = s.signals := by
  induction ps generalizing s with
  | nil => simp [LoadFiles, h]
  | cons p ps ih =>
    have hw : (LoadFile p s).m_working = true := by
      rw [LoadFile_of_working p s h]; exact h
    have := ih (LoadFile p s) hw
    simp only [LoadFiles, List.foldl_cons] at this ⊢
    rw [LoadFile_of_working p s h] at this ⊢
    simpa using this

theorem LoadFiles_last (ps : List Path) (pk : Path) (s : CaptureManager Stats D)
    (h : s.m_working = true) : LoadFiles (ps ++ [pk]) s = LoadFile pk s := by
  induction ps generalizing s with
  | nil => simp [LoadFiles]
  | cons p ps ih =>
    have hw : (LoadFile p s).m_working = true := by
      rw [LoadFile_of_working p s h]; exact h
    have := ih (LoadFile p s) hw
    simp only [LoadFiles, List.cons_append, List.foldl_cons] at this ⊢
    rw [this, LoadFile_LoadFile_of_working p pk s h]

theorem OnLoadFileDone_of_pending (t : LoadedFileType) (p : Path) (s : CaptureManager Stats D)
    (h : s.m_pending_capture_file = some p) :
    OnLoadFileDone t s =
      { s with
        contexts := CancelIfNotNull s.m_capture_stats_context s.contexts
        m_loading_in_progress := true
        m_working := true
        m_pending_capture_file := none
        worker_queue := s.worker_queue ++ [.load p]
        dispatched := s.dispatched ++ [.load p]
        signals := s.signals ++ [.FileLoaded t] } := by
  simp [OnLoadFileDone, h, LoadFile, CancelStatsContext, invokeMethod, emit]

theorem OnLoadFileDone_of_no_pending (t : LoadedFileType) (s : CaptureManager Stats D)
    (h : s.m_pending_capture_file = none) :
    OnLoadFileDone t s =
      { s with
        m_loading_in_progress := false
        m_working := false
        signals := s.signals ++ [.FileLoaded t] } := by
  simp [OnLoadFileDone, h, emit]

/-! ## More unfolding lemmas, and the invariant -/

theorem GatherTraceStats_of_idle (s : CaptureManager Stats D) (h : s.m_working = false) :
    GatherTraceStats s =
      { s with
        m_working := true
        contexts := CancelIfNotNull s.m_capture_stats_context s.contexts ++ [false]
        m_capture_stats_context := some s.contexts.length
        worker_queue := s.worker_queue ++ [.stats s.contexts.length]
        dispatched := s.dispatched ++ [.stats s.contexts.length] } := by
  simp [GatherTraceStats, h, CancelStatsContext, invokeMethod, CancelIfNotNull_length]

theorem OnGatherTraceStatsDone_of_pending (p : Path) (s : CaptureManager Stats D)
    (h : s.m_pending_capture_file = some p) :
    OnGatherTraceStatsDone s = { s with m_working := false } := by
  simp [OnGatherTraceStatsDone, h]

theorem OnGatherTraceStatsDone_of_no_pending (s : CaptureManager Stats D)
    (h : s.m_pending_capture_file = none) :
    OnGatherTraceStatsDone s =
      { s with m_working := false, signals := s.signals ++ [.TraceStatsUpdated] } := by
  simp [OnGatherTraceStatsDone, h, emit]

theorem fileLoadedTypes_append (a b : List Signal) :
    fileLoadedTypes (a ++ b) = fileLoadedTypes a ++ fileLoadedTypes b := by
  induction a with
  | nil => rfl
  | cons x a ih => cases x <;> simp [fileLoadedTypes, ih]

theorem completedLoadTypes_append (a b : List JobOutcome) :
    completedLoadTypes (a ++ b) = completedLoadTypes a ++ completedLoadTypes b := by
  induction a with
  | nil => rfl
  | cons x a ih => cases x <;> simp [completedLoadTypes, ih]

theorem LoadFileImpl_signals_cases {D : Type} (fs_exists : Path → Option Bool)
    (ops : DataCoreOps D) (p : Path) (d : D) :
    (LoadFileImpl fs_exists ops p d).signals = [] ∨
      ∃ reason aux, (LoadFileImpl fs_exists ops p d).signals
        = [.LoadingFailure reason p aux] := by
  cases hc : Classify fs_exists p with
  | threw => simp [LoadFileImpl, hc]
  | asset_missing a => simp [LoadFileImpl, hc]
  | classified t =>
    cases t with
    | kUnknown => simp [LoadFileImpl, hc]
    | kDiveFile =>
      simp only [LoadFileImpl, hc]
      split <;> [simp; (split <;> simp)]
    | kRdFile =>
      simp only [LoadFileImpl, hc]
      split <;> [simp; (split <;> simp)]
    | kGfxrFile =>
      simp only [LoadFileImpl, hc]
      split <;> [simp; (split <;> simp)]

theorem fileLoadedTypes_LoadFileImpl {D : Type} (fs_exists : Path → Option Bool)
    (ops : DataCoreOps D) (p : Path) (d : D) :
    fileLoadedTypes (LoadFileImpl fs_exists ops p d).signals = [] := by
  rcases LoadFileImpl_signals_cases fs_exists ops p d with h | ⟨r, a, h⟩ <;>
    simp [h, fileLoadedTypes]

theorem LoadFileImpl_file_type_of_not_threw {D : Type} (fs_exists : Path → Option Bool)
    (ops : DataCoreOps D) (p : Path) (d : D) (h : Classify fs_exists p ≠ .threw) :
    ∃ t, (LoadFileImpl fs_exists ops p d).file_type = some t := by
  cases hc : Classify fs_exists p with
  | threw => exact absurd hc h
  | asset_missing a => exact ⟨.kUnknown, by simp [LoadFileImpl, hc]⟩
  | classified t =>
    cases t with
    | kUnknown => exact ⟨.kUnknown, by simp [LoadFileImpl, hc]⟩
    | kDiveFile =>
      simp only [LoadFileImpl, hc]
      split <;> [exact ⟨_, rfl⟩; (split <;> exact ⟨_, rfl⟩)]
    | kRdFile =>
      simp only [LoadFileImpl, hc]
      split <;> [exact ⟨_, rfl⟩; (split <;> exact ⟨_, rfl⟩)]
    | kGfxrFile =>
      simp only [LoadFileImpl, hc]
      split <;> [exact ⟨_, rfl⟩; (split <;> exact ⟨_, rfl⟩)]

theorem Classify_filesystem_ne_threw (env : WorkerEnv Stats D) (p : Path) :
    Classify env.filesystem p ≠ .threw := by
  unfold Classify
  simp only [WorkerEnv.filesystem]
  split
  · split <;> simp
  · simp

theorem LoadFileImpl_filesystem_returns (env : WorkerEnv Stats D) (p : Path) (d : D) :
    ∃ t, (LoadFileImpl env.filesystem env.ops p d).file_type = some t :=
  LoadFileImpl_file_type_of_not_threw _ _ _ _ (Classify_filesystem_ne_threw env p)

theorem WorkerCompletes_load_eq (env : WorkerEnv Stats D) (s : CaptureManager Stats D)
    (p : Path) (rest : List Job) (hq : s.worker_queue = .load p :: rest) :
    ∃ t, (LoadFileImpl env.filesystem env.ops p s.data_core).file_type = some t ∧
      WorkerCompletes env s =
        OnLoadFileDone t
          { s with
            worker_queue := rest
            data_core := (LoadFileImpl env.filesystem env.ops p s.data_core).data_core
            signals := s.signals ++ (LoadFileImpl env.filesystem env.ops p s.data_core).signals
            completed := s.completed ++ [.load p t] } := by
  obtain ⟨t, ht⟩ := LoadFileImpl_filesystem_returns env p s.data_core
  exact ⟨t, ht, by simp only [WorkerCompletes, hq, ht]⟩

theorem Inv.queue_nil {s : CaptureManager Stats D} (hI : Inv s) (h : s.m_working = false) :
    s.worker_queue = [] := by
  have h1 := hI.queue_le
  have h2 := hI.working_iff
  cases hq : s.worker_queue with
  | nil => rfl
  | cons j rest =>
    rw [hq] at h1 h2
    cases rest with
    | nil => simp [h] at h2
    | cons k r => simp at h1

theorem Inv.queue_single {s : CaptureManager Stats D} (hI : Inv s) (h : s.m_working = true) :
    ∃ j, s.worker_queue = [j] := by
  have h2 := hI.working_iff.mp h
  cases hq : s.worker_queue with
  | nil => simp [hq] at h2
  | cons j rest =>
    cases rest with
    | nil => exact ⟨j, rfl⟩
    | cons k r => simp [hq] at h2

theorem Inv_init [Inhabited Stats] (d : D) : Inv (init d : CaptureManager Stats D) := by
  constructor <;> simp [init, fileLoadedTypes, completedLoadTypes]

theorem Inv_LoadFile (p : Path) {s : CaptureManager Stats D} (hI : Inv s) :
    Inv (LoadFile p s) := by
  cases hw : s.m_working with
  | true =>
    rw [LoadFile_of_working p s hw]
    exact ⟨hI.queue_le, hI.working_iff, hI.log, hI.stats_ctx,
      fun c hc => by simpa [CancelIfNotNull_length] using hI.ctx_lt c hc, hI.loaded⟩
  | false =>
    have hq := hI.queue_nil hw
    have hlog := hI.log
    rw [LoadFile_of_idle p s hw]
    refine ⟨by simp [hq], by simp [hq], by simp [hlog, hq], by simp [hq],
      fun c hc => by simpa [CancelIfNotNull_length] using hI.ctx_lt c hc, hI.loaded⟩

theorem Inv_GatherTraceStats {s : CaptureManager Stats D} (hI : Inv s) :
    Inv (GatherTraceStats s) := by
  cases hw : s.m_working with
  | true => simpa [GatherTraceStats, hw] using hI
  | false =>
    have hq := hI.queue_nil hw
    have hlog := hI.log
    rw [GatherTraceStats_of_idle s hw]
    refine ⟨by simp [hq], by simp [hq], by simp [hlog, hq], by simp [hq],
      by simp [CancelIfNotNull_length], hI.loaded⟩

theorem Inv_WorkerCompletes (env : WorkerEnv Stats D) {s : CaptureManager Stats D}
    (hI : Inv s) : Inv (WorkerCompletes env s) := by
  cases hw : s.m_working with
  | false =>
    have hq := hI.queue_nil hw
    simpa [WorkerCompletes, hq] using hI
  | true =>
    obtain ⟨j, hq⟩ := hI.queue_single hw
    have hlog := hI.log
    have hctx := hI.ctx_lt
    have hld := hI.loaded
    cases j with
    | load p0 =>
      obtain ⟨t0, _, hwc⟩ := WorkerCompletes_load_eq env s p0 [] hq
      rw [hwc]
      cases hp : s.m_pending_capture_file with
      | none =>
        rw [OnLoadFileDone_of_no_pending _ _ (by simp [hp])]
        refine ⟨by simp, by simp, by simp [hlog, hq, JobOutcome.job], by simp,
          fun c hc => hctx c hc, ?_⟩
        simp [fileLoadedTypes_append, completedLoadTypes_append, fileLoadedTypes_LoadFileImpl,
          hld, fileLoadedTypes, completedLoadTypes]
      | some p =>
        rw [OnLoadFileDone_of_pending _ p _ (by simp [hp])]
        refine ⟨by simp, by simp, by simp [hlog, hq, JobOutcome.job], by simp,
          fun c hc => by simpa [CancelIfNotNull_length] using hctx c hc, ?_⟩
        simp [fileLoadedTypes_append, completedLoadTypes_append, fileLoadedTypes_LoadFileImpl,
          hld, fileLoadedTypes, completedLoadTypes]
    | stats c0 =>
      simp only [WorkerCompletes, hq]
      cases hp : s.m_pending_capture_file with
      | none =>
        rw [OnGatherTraceStatsDone_of_no_pending _ (by simp [hp])]
        refine ⟨by simp, by simp, by simp [hlog, hq, JobOutcome.job], by simp,
          fun c hc => hctx c hc, ?_⟩
        simp [fileLoadedTypes_append, completedLoadTypes_append,
          hld, fileLoadedTypes, completedLoadTypes]
      | some p =>
        rw [OnGatherTraceStatsDone_of_pending p _ (by simp [hp])]
        refine ⟨by simp, by simp, by simp [hlog, hq, JobOutcome.job], by simp,
          fun c hc => hctx c hc, ?_⟩
        simp [fileLoadedTypes_append, completedLoadTypes_append,
          hld, fileLoadedTypes, completedLoadTypes]

theorem Inv_step (e : Event Stats D) {s : CaptureManager Stats D} (hI : Inv s) :
    Inv (step s e) := by
  cases e with
  | LoadFile p => exact Inv_LoadFile p hI
  | GatherTraceStats => exact Inv_GatherTraceStats hI
  | WorkerCompletes env => exact Inv_WorkerCompletes env hI

theorem Inv_foldl (events : List (Event Stats D)) {s : CaptureManager Stats D} (hI : Inv s) :
    Inv (events.foldl step s) := by
  induction events generalizing s with
  | nil => exact hI
  | cons e es ih => exact ih (Inv_step e hI)

theorem Inv_run [Inhabited Stats] (d : D) (events : List (Event Stats D)) :
    Inv (run d events : CaptureManager Stats D) :=
  Inv_foldl events (Inv_init d)


theorem LoadFile_signals (p : Path) (s : CaptureManager Stats D) :
    (LoadFile p s).signals = s.signals := by
  cases hw : s.m_working with
  | true => rw [LoadFile_of_working p s hw]
  | false => rw [LoadFile_of_idle p s hw]

theorem LoadFile_Cancelled (p : Path) (s : CaptureManager Stats D) (c : Nat)
    (hc : s.m_capture_stats_context = some c) (hlt : c < s.contexts.length) :
    Cancelled (LoadFile p s) c = true := by
  cases hw : s.m_working with
  | true =>
    rw [LoadFile_of_working p s hw]
    simp [Cancelled, CancelIfNotNull, hc, List.getD_eq_getElem?_getD, List.getElem?_set, hlt]
  | false =>
    rw [LoadFile_of_idle p s hw]
    simp [Cancelled, CancelIfNotNull, hc, List.getD_eq_getElem?_getD, List.getElem?_set, hlt]

theorem WorkerCompletes_load (env : WorkerEnv Stats D) (s : CaptureManager Stats D)
    (p : Path) (rest : List Job) (hq : s.worker_queue = .load p :: rest) :
    ∃ t, (LoadFileImpl env.filesystem env.ops p s.data_core).file_type = some t ∧
      (WorkerCompletes env s).signals
        = s.signals ++ (LoadFileImpl env.filesystem env.ops p s.data_core).signals
            ++ [.FileLoaded t] ∧
      (WorkerCompletes env s).completed = s.completed ++ [.load p t] := by
  obtain ⟨t, ht, hwc⟩ := WorkerCompletes_load_eq env s p rest hq
  refine ⟨t, ht, ?_⟩
  rw [hwc]
  cases hp : s.m_pending_capture_file with
  | none => rw [OnLoadFileDone_of_no_pending _ _ (by simp [hp])]; simp
  | some q => rw [OnLoadFileDone_of_pending _ q _ (by simp [hp])]; simp

/-! ## Coalescing of load requests -/

/-- C1: for a coordinator with `m_working = true` and calls `LoadFile(p1) ... LoadFile(pk)`,
`k ≥ 1` (the list `ps ++ [pk]`): after any number of these calls the dispatch log, the
worker queue and the signal log are as before, so none of the calls dispatches a job or
emits a notification; the state after all of them is the state after the single call
`LoadFile(pk)`, so nothing of `p1 ... p(k-1)` is left and every continuation of the run
is the one that follows `LoadFile(pk)` alone; and the following `OnLoadFileDone`
dispatches exactly one job, the load of `pk`, empties the pending slot, keeps
`m_working = true` and emits only the `FileLoaded` of the load that finished. The same
holds when the completion is the worker finishing the running load job `p0`, with the
type `t0` that its `LoadFileImpl` returned. -/
theorem LoadFile_while_working_last_wins (s : CaptureManager Stats D) (ps : List Path)
    (pk : Path) (file_type : LoadedFileType) (h : s.m_working = true) :
    (∀ n, (LoadFiles ((ps ++ [pk]).take n) s).dispatched = s.dispatched ∧
      (LoadFiles ((ps ++ [pk]).take n) s).worker_queue = s.worker_queue ∧
      (LoadFiles ((ps ++ [pk]).take n) s).signals = s.signals) ∧
    LoadFiles (ps ++ [pk]) s = LoadFile pk s ∧
    (∀ events : List (Event Stats D),
      events.foldl step (LoadFiles (ps ++ [pk]) s) = events.foldl step (LoadFile pk s)) ∧
    (LoadFiles (ps ++ [pk]) s).m_pending_capture_file = some pk ∧
    (OnLoadFileDone file_type (LoadFiles (ps ++ [pk]) s)).dispatched
      = s.dispatched ++ [.load pk] ∧
    (OnLoadFileDone file_type (LoadFiles (ps ++ [pk]) s)).worker_queue
      = s.worker_queue ++ [.load pk] ∧
    (OnLoadFileDone file_type (LoadFiles (ps ++ [pk]) s)).signals
      = s.signals ++ [.FileLoaded file_type] ∧
    (OnLoadFileDone file_type (LoadFiles (ps ++ [pk]) s)).m_pending_capture_file = none ∧
    (OnLoadFileDone file_type (LoadFiles (ps ++ [pk]) s)).m_working = true ∧
    (∀ (env : WorkerEnv Stats D) (p0 : Path) (rest : List Job),
      s.worker_queue = .load p0 :: rest →
      ∃ t0, (LoadFileImpl env.filesystem env.ops p0 s.data_core).file_type = some t0 ∧
      (WorkerCompletes env (LoadFiles (ps ++ [pk]) s)).dispatched
        = s.dispatched ++ [.load pk] ∧
      (WorkerCompletes env (LoadFiles (ps ++ [pk]) s)).worker_queue = rest ++ [.load pk] ∧
      (WorkerCompletes env (LoadFiles (ps ++ [pk]) s)).signals
        = s.signals ++ (LoadFileImpl env.filesystem env.ops p0 s.data_core).signals
            ++ [.FileLoaded t0] ∧
      (WorkerCompletes env (LoadFiles (ps ++ [pk]) s)).m_pending_capture_file = none) := by
  have hlast := LoadFiles_last ps pk s h
  have hpend : (LoadFile pk s).m_pending_capture_file = some pk := by
    rw [LoadFile_of_working pk s h]
  refine ⟨fun n => ?_, hlast, fun events => by rw [hlast], ?_, ?_, ?_, ?_, ?_, ?_, ?_⟩
  · have := LoadFiles_frame ((ps ++ [pk]).take n) s h
    exact ⟨this.2.1, this.2.2.1, this.2.2.2⟩
  · rw [hlast, hpend]
  · rw [hlast, OnLoadFileDone_of_pending file_type pk _ hpend, LoadFile_of_working pk s h]
  · rw [hlast, OnLoadFileDone_of_pending file_type pk _ hpend, LoadFile_of_working pk s h]
  · rw [hlast, OnLoadFileDone_of_pending file_type pk _ hpend, LoadFile_of_working pk s h]
  · rw [hlast, OnLoadFileDone_of_pending file_type pk _ hpend]
  · rw [hlast, OnLoadFileDone_of_pending file_type pk _ hpend]
  · intro env p0 rest hq
    have hq2 : (LoadFile pk s).worker_queue = .load p0 :: rest := by
      rw [LoadFile_of_working pk s h]; exact hq
    obtain ⟨t0, ht0, hwc⟩ := WorkerCompletes_load_eq env (LoadFile pk s) p0 rest hq2
    have hd : (LoadFile pk s).data_core = s.data_core := by rw [LoadFile_of_working pk s h]
    rw [hd] at ht0 hwc
    refine ⟨t0, ht0, ?_⟩
    rw [hlast, hwc, OnLoadFileDone_of_pending t0 pk _ (by simpa using hpend),
      LoadFile_of_working pk s h]
    simp

/-- Witness for C1: a load of `a.rd` is running, `b.rd` then `c.rd` are requested, and the
completion dispatches `c.rd` only. -/
theorem LoadFile_while_working_last_wins_witness :
    (LoadFile "a.rd".toList (init () : CaptureManager Unit Unit)).m_working = true ∧
    (OnLoadFileDone .kRdFile
      (LoadFiles (["b.rd".toList] ++ ["c.rd".toList])
        (LoadFile "a.rd".toList (init () : CaptureManager Unit Unit)))).dispatched
      = (LoadFile "a.rd".toList (init () : CaptureManager Unit Unit)).dispatched
          ++ [.load "c.rd".toList] :=
  ⟨by decide,
    (LoadFile_while_working_last_wins (LoadFile "a.rd".toList (init ())) ["b.rd".toList]
      "c.rd".toList .kRdFile (by decide)).2.2.2.2.1⟩

/-! ## Completion of a stats job -/

/-- C2 (the code at the failing input): from the initial state, `GatherTraceStats()`, then
`LoadFile(p)` while the stats job runs, then completion of the stats job. After
`OnGatherTraceStatsDone` the coordinator is idle (`m_working = false`) although the
pending slot still holds `p`; `m_loading_in_progress` is still true, the only job ever
dispatched is the stats job, the worker queue is empty and no signal was emitted. The
load of `p` is not dispatched. -/
theorem OnGatherTraceStatsDone_leaves_pending_load (env : WorkerEnv Unit Unit) (p : Path) :
    (run () [.GatherTraceStats, .LoadFile p, .WorkerCompletes env]).m_working = false ∧
    (run () [.GatherTraceStats, .LoadFile p, .WorkerCompletes env]).m_pending_capture_file
      = some p ∧
    (run () [.GatherTraceStats, .LoadFile p, .WorkerCompletes env]).m_loading_in_progress
      = true ∧
    (run () [.GatherTraceStats, .LoadFile p, .WorkerCompletes env]).dispatched = [.stats 0] ∧
    (run () [.GatherTraceStats, .LoadFile p, .WorkerCompletes env]).worker_queue = [] ∧
    (run () [.GatherTraceStats, .LoadFile p, .WorkerCompletes env]).signals = [] :=
  ⟨rfl, rfl, rfl, rfl, rfl, rfl⟩

/-! ## Stats requests while working -/

/-- C3: with `m_working = true`, `GatherTraceStats()` returns the coordinator unchanged:
the same worker queue and dispatch log (no job), the same tokens and context member (no
cancel, no new context), the same `m_working`, `m_pending_capture_file`,
`m_loading_in_progress` and stored stats. -/
theorem GatherTraceStats_while_working_noop (s : CaptureManager Stats D)
    (h : s.m_working = true) :
    GatherTraceStats s = s ∧
    (GatherTraceStats s).dispatched = s.dispatched ∧
    (GatherTraceStats s).worker_queue = s.worker_queue ∧
    (GatherTraceStats s).contexts = s.contexts ∧
    (GatherTraceStats s).m_capture_stats_context = s.m_capture_stats_context ∧
    (GatherTraceStats s).m_working = s.m_working ∧
    (GatherTraceStats s).m_pending_capture_file = s.m_pending_capture_file ∧
    (GatherTraceStats s).m_loading_in_progress = s.m_loading_in_progress ∧
    (GatherTraceStats s).m_capture_stats = s.m_capture_stats := by
  have : GatherTraceStats s = s := by simp [GatherTraceStats, h]
  simp [this]

/-- Witness for C3: a stats job is running, a load of `a.rd` is pending, and a second
`GatherTraceStats()` changes nothing. -/
theorem GatherTraceStats_while_working_noop_witness :
    (run () [.GatherTraceStats, .LoadFile "a.rd".toList] : CaptureManager Nat Unit).m_working
      = true ∧
    GatherTraceStats (run () [.GatherTraceStats, .LoadFile "a.rd".toList] : CaptureManager Nat Unit)
      = run () [.GatherTraceStats, .LoadFile "a.rd".toList] :=
  ⟨by decide,
    (GatherTraceStats_while_working_noop (run () [.GatherTraceStats, .LoadFile "a.rd".toList])
      (by decide)).1⟩

/-! ## At most one job in flight -/

/-- C4: after every run from the initial state (calls of `LoadFile` and `GatherTraceStats`,
and completions of the oldest job that is dispatched and not completed), the dispatch log
is the completed jobs followed by the jobs still queued on the worker, so the queued jobs
are the dispatched-but-not-completed ones; there is at most one of them; and `m_working`
is true if and only if there is exactly one. -/
theorem at_most_one_job_in_flight [Inhabited Stats] (d : D) (events : List (Event Stats D)) :
    (run d events).dispatched
      = (run d events).completed.map JobOutcome.job ++ (run d events).worker_queue ∧
    (run d events).dispatched.length
      = (run d events).completed.length + (run d events).worker_queue.length ∧
    (run d events).dispatched.length - (run d events).completed.length ≤ 1 ∧
    ((run d events).m_working = true ↔
      (run d events).dispatched.length - (run d events).completed.length = 1) := by
  have hI := Inv_run d events
  have hlen : (run d events).dispatched.length
      = (run d events).completed.length + (run d events).worker_queue.length := by
    rw [hI.log]; simp
  have hle := hI.queue_le
  have hiff := hI.working_iff
  refine ⟨hI.log, hlen, by omega, ?_⟩
  rw [hiff]
  omega

/-! ## A load preempts stats -/

/-- C5: in every state reached by a run in which a stats job is in flight (its lambda,
holding token `c`, is queued on the worker), the first statement of `LoadFile(p)` alone
already cancels `c`, and after the whole call `Cancelled()` of `c` is true; in such a
state the load is stored as pending and nothing is dispatched. The cancellation does not
depend on the branch taken: in any state whose context member shares a created token `c`,
`LoadFile(p)` leaves `c` cancelled, whether it dispatches the load or stores it. -/
theorem LoadFile_cancels_running_stats [Inhabited Stats] (d : D)
    (events : List (Event Stats D)) (c : Nat) (p : Path)
    (h : Job.stats c ∈ (run d events).worker_queue) :
    Cancelled (CancelStatsContext (run d events)) c = true ∧
    Cancelled (LoadFile p (run d events)) c = true ∧
    (LoadFile p (run d events)).m_pending_capture_file = some p ∧
    (LoadFile p (run d events)).dispatched = (run d events).dispatched ∧
    (∀ s : CaptureManager Stats D, s.m_capture_stats_context = some c →
      c < s.contexts.length → Cancelled (LoadFile p s) c = true) := by
  have hI := Inv_run d events
  have hc := hI.stats_ctx c h
  have hlt := hI.ctx_lt c hc
  have hw : (run d events).m_working = true := by
    cases hw : (run d events).m_working with
    | true => rfl
    | false => rw [hI.queue_nil hw] at h; simp at h
  refine ⟨?_, LoadFile_Cancelled p _ c hc hlt, ?_, ?_,
    fun s hs hl => LoadFile_Cancelled p s c hs hl⟩
  · simp [Cancelled, CancelStatsContext, CancelIfNotNull, hc, List.getD_eq_getElem?_getD,
      List.getElem?_set, hlt]
  · rw [LoadFile_of_working p _ hw]
  · rw [LoadFile_of_working p _ hw]

/-- Witness for C5: after `GatherTraceStats()` the stats job with token 0 is in flight, and
`LoadFile("a.rd")` cancels token 0. -/
theorem LoadFile_cancels_running_stats_witness :
    Job.stats 0 ∈ (run () [.GatherTraceStats] : CaptureManager Nat Unit).worker_queue ∧
    Cancelled (run () [.GatherTraceStats] : CaptureManager Nat Unit) 0 = false ∧
    Cancelled (LoadFile "a.rd".toList (run () [.GatherTraceStats] : CaptureManager Nat Unit)) 0
      = true :=
  ⟨by decide, by decide,
    (LoadFile_cancels_running_stats () [.GatherTraceStats] 0 "a.rd".toList (by decide)).2.1⟩

/-! ## Reading the stats -/

/-- C6: `FillCaptureStatsResult(out)`: when `m_working` is true, `out` is the empty
(default-constructed) `CaptureStats`, whatever the stored stats are; when `m_working` is
false, `out` is the stored `m_capture_stats`; in both cases the coordinator is unchanged. -/
theorem FillCaptureStatsResult_spec [Inhabited Stats] (s : CaptureManager Stats D) :
    (s.m_working = true →
      (FillCaptureStatsResult s).1 = default ∧ (FillCaptureStatsResult s).2 = s) ∧
    (s.m_working = false →
      (FillCaptureStatsResult s).1 = s.m_capture_stats ∧ (FillCaptureStatsResult s).2 = s) := by
  constructor <;> intro h <;> simp [FillCaptureStatsResult, h]

/-- Witness for C6: with stored stats 7, an idle coordinator hands out 7, and the same
coordinator with a load running hands out the default 0. -/
theorem FillCaptureStatsResult_spec_witness :
    ((LoadFile "a.rd".toList
        (run () [.GatherTraceStats, .WorkerCompletes (simpleEnv [] 7)])).m_working = true ∧
      (LoadFile "a.rd".toList
        (run () [.GatherTraceStats, .WorkerCompletes (simpleEnv [] 7)])).m_capture_stats = 7 ∧
      (FillCaptureStatsResult (LoadFile "a.rd".toList
        (run () [.GatherTraceStats, .WorkerCompletes (simpleEnv [] 7)]))).1 = 0) ∧
    ((run () [.GatherTraceStats, .WorkerCompletes (simpleEnv [] 7)]).m_working = false ∧
      (FillCaptureStatsResult
        (run () [.GatherTraceStats, .WorkerCompletes (simpleEnv [] 7)])).1 = 7) :=
  ⟨⟨by decide, by decide,
      ((FillCaptureStatsResult_spec (LoadFile "a.rd".toList
        (run () [.GatherTraceStats, .WorkerCompletes (simpleEnv [] 7)]))).1 (by decide)).1⟩,
    ⟨by decide,
      ((FillCaptureStatsResult_spec
        (run () [.GatherTraceStats, .WorkerCompletes (simpleEnv [] 7)])).2 (by decide)).1⟩⟩

/-! ## Completion notifications of loads -/

/-- C7: after every run, the `FileLoaded` signals emitted so far carry, in order, exactly
the types returned by `LoadFileImpl` in the load jobs completed so far, so there are as
many of them as completed load jobs. A call of `LoadFile` (which may overwrite a pending
request) emits no signal. The completion of a load job `p` appends the failure signals
of its `LoadFileImpl`, none of which is a `FileLoaded`, and then exactly one `FileLoaded`
with the type `t` its `LoadFileImpl` returned, also when a pending load is dispatched in
the same step. -/
theorem FileLoaded_once_per_completed_load [Inhabited Stats] (d : D)
    (events : List (Event Stats D)) :
    fileLoadedTypes (run d events).signals = completedLoadTypes (run d events).completed ∧
    (fileLoadedTypes (run d events).signals).length
      = (completedLoadTypes (run d events).completed).length ∧
    (∀ p : Path, (LoadFile p (run d events)).signals = (run d events).signals) ∧
    (∀ (env : WorkerEnv Stats D) (p : Path) (rest : List Job),
      (run d events).worker_queue = .load p :: rest →
      ∃ t, (LoadFileImpl env.filesystem env.ops p (run d events).data_core).file_type
        = some t ∧
      (WorkerCompletes env (run d events)).signals
        = (run d events).signals
          ++ (LoadFileImpl env.filesystem env.ops p (run d events).data_core).signals
          ++ [.FileLoaded t] ∧
      fileLoadedTypes (LoadFileImpl env.filesystem env.ops p (run d events).data_core).signals
        = [] ∧
      (WorkerCompletes env (run d events)).completed
        = (run d events).completed ++ [.load p t]) := by
  have hI := Inv_run d events
  refine ⟨hI.loaded, by rw [hI.loaded], fun p => LoadFile_signals p _, ?_⟩
  intro env p rest hq
  obtain ⟨t, ht, hs, hc⟩ := WorkerCompletes_load env _ p rest hq
  exact ⟨t, ht, hs, fileLoadedTypes_LoadFileImpl _ _ _ _, hc⟩

/-- Witness for C7: `a.rd` is loaded, `b.rd` and then `c.txt` are requested meanwhile, and
both dispatched jobs complete: two `FileLoaded` signals, for the two completed jobs, and
none for the overwritten `b.rd`. -/
theorem FileLoaded_once_per_completed_load_witness :
    (run () [.LoadFile "a.rd".toList, .LoadFile "b.rd".toList, .LoadFile "c.txt".toList]
      : CaptureManager Nat Unit).worker_queue = .load "a.rd".toList :: [] ∧
    (WorkerCompletes (simpleEnv [] 0)
      (run () [.LoadFile "a.rd".toList, .LoadFile "b.rd".toList,
        .LoadFile "c.txt".toList])).signals = [.FileLoaded .kRdFile] ∧
    (run () [.LoadFile "a.rd".toList, .LoadFile "b.rd".toList, .LoadFile "c.txt".toList,
      .WorkerCompletes (simpleEnv [] 0), .WorkerCompletes (simpleEnv [] 0)]
      : CaptureManager Nat Unit).signals
      = [.FileLoaded .kRdFile,
          .LoadingFailure .kUnsupportedFile "c.txt".toList [],
          .FileLoaded .kUnknown] :=
  ⟨by decide,
    by
      obtain ⟨t, ht, hs, -⟩ := (FileLoaded_once_per_completed_load ()
        [.LoadFile "a.rd".toList, .LoadFile "b.rd".toList, .LoadFile "c.txt".toList]).2.2.2
        (simpleEnv [] 0) "a.rd".toList [] (by decide)
      have ht2 : t = .kRdFile := (Option.some.inj ht).symm
      rw [ht2] at hs
      exact hs,
    by decide⟩

end CaptureManager

/-! ## Classification of capture files -/

theorem Classify_of_gfxr (fs_exists : Path → Option Bool) (p : Path)
    (hext : extension p = kGfxrSuffix) :
    Classify fs_exists p =
      match fs_exists (asset_file_path p) with
      | none => .threw
      | some false => .asset_missing (asset_file_path p)
      | some true =>
        match fs_exists (replace_extension p ".rd".toList) with
        | none => .threw
        | some true => .classified .kDiveFile
        | some false => .classified .kGfxrFile := by
  have e0 : decide (kGfxrSuffix = kGfxrSuffix) = true := by decide
  have e1 : decide (kGfxrSuffix = ".dive".toList) = false := by decide
  have e2 : decide (kGfxrSuffix = ".rd".toList) = false := by decide
  simp only [Classify, hext, e0, e1, e2]
  cases ha : fs_exists (asset_file_path p) with
  | none => rfl
  | some a =>
    cases a with
    | false => rfl
    | true =>
      cases hr : fs_exists (replace_extension p ".rd".toList) with
      | none => simp [hr]
      | some r => cases r <;> simp [hr, FileTypeOf]

theorem Classify_of_not_gfxr (fs_exists : Path → Option Bool) (p : Path)
    (hext : extension p ≠ kGfxrSuffix) :
    Classify fs_exists p =
      if extension p = ".dive".toList ∨ extension p = ".rd".toList then .classified .kRdFile
      else .classified .kUnknown := by
  have e0 : decide (extension p = kGfxrSuffix) = false := by simpa using hext
  simp only [Classify, e0]
  by_cases h1 : extension p = ".dive".toList
  · rw [if_pos (Or.inl h1)]
    simp only [decide_eq_true h1, FileTypeOf]
    rfl
  · by_cases h2 : extension p = ".rd".toList
    · rw [if_pos (Or.inr h2)]
      simp only [decide_eq_true h2, decide_eq_false h1, FileTypeOf]
      rfl
    · rw [if_neg (not_or.mpr ⟨h1, h2⟩)]
      simp only [decide_eq_false h1, decide_eq_false h2, FileTypeOf]
      rfl

/-- C8 (counterexample): `trace_trim_trigger.gfxr` has the extension
`kGfxrSuffix`, and on a filesystem where the status of a path cannot be obtained (a name
that is too long, a symbolic link loop, a directory that may not be searched) its asset
path is not found to exist: `std::filesystem::exists` throws. `LoadFileImpl` then emits
no signal at all, so no `kGfxaAssetMissing` failure, and returns nothing. So it is not
true that for every path with the extension whose asset is not found to exist exactly one
`kGfxaAssetMissing` failure is reported. -/
theorem LoadFileImpl_missing_asset_exists_throws :
    extension "trace_trim_trigger.gfxr".toList = kGfxrSuffix ∧
    (fun _ => none : Path → Option Bool) (asset_file_path "trace_trim_trigger.gfxr".toList)
      ≠ some true ∧
    (LoadFileImpl (fun _ => none) (constantOps .kSuccess true)
      "trace_trim_trigger.gfxr".toList ()).signals = [] ∧
    (LoadFileImpl (fun _ => none) (constantOps .kSuccess true)
      "trace_trim_trigger.gfxr".toList ()).file_type = none ∧
    ¬ (∀ (fs_exists : Path → Option Bool) (p : Path), extension p = kGfxrSuffix →
        fs_exists (asset_file_path p) ≠ some true →
        (LoadFileImpl fs_exists (constantOps .kSuccess true) p ()).signals
          = [.LoadingFailure .kGfxaAssetMissing p (asset_file_path p)]) := by
  refine ⟨by decide, by decide, by decide, by decide, fun h => ?_⟩
  have := h (fun _ => none) "trace_trim_trigger.gfxr".toList (by decide) (by decide)
  revert this
  decide

/-- C8 (amended): for every filesystem, data core and path whose extension is `kGfxrSuffix`
and for whose asset path `std::filesystem::exists` returns false, `LoadFileImpl` emits
exactly one signal, the `LoadingFailure` with reason `kGfxaAssetMissing`, the input path
and the expected asset path; it emits no `LoadingFailure` with reason `kUnsupportedFile`;
it returns `kUnknown` and makes no call on the data core. The filesystem is arbitrary
apart from the answer for the asset, so this holds with and without a sibling `.rd`
file. -/
theorem LoadFileImpl_missing_asset {D : Type} (fs_exists : Path → Option Bool)
    (ops : DataCoreOps D) (p : Path) (d : D) (hext : extension p = kGfxrSuffix)
    (hasset : fs_exists (asset_file_path p) = some false) :
    Classify fs_exists p = .asset_missing (asset_file_path p) ∧
    (LoadFileImpl fs_exists ops p d).signals
      = [.LoadingFailure .kGfxaAssetMissing p (asset_file_path p)] ∧
    (∀ q aux, Signal.LoadingFailure .kUnsupportedFile q aux
      ∉ (LoadFileImpl fs_exists ops p d).signals) ∧
    (LoadFileImpl fs_exists ops p d).file_type = some .kUnknown ∧
    (LoadFileImpl fs_exists ops p d).calls = [] ∧
    (LoadFileImpl fs_exists ops p d).data_core = d := by
  have hc : Classify fs_exists p = .asset_missing (asset_file_path p) := by
    rw [Classify_of_gfxr fs_exists p hext, hasset]
  simp [LoadFileImpl, hc]

/-- Witness for C8: `trace_trim_trigger.gfxr` with only the sibling `.rd` file on disk. -/
theorem LoadFileImpl_missing_asset_witness :
    extension "trace_trim_trigger.gfxr".toList = kGfxrSuffix ∧
    (fun q => some (decide (q = "trace_trim_trigger.rd".toList)))
      (asset_file_path "trace_trim_trigger.gfxr".toList) = some false ∧
    (LoadFileImpl (fun q => some (decide (q = "trace_trim_trigger.rd".toList)))
      (constantOps .kSuccess true) "trace_trim_trigger.gfxr".toList ()).signals
      = [.LoadingFailure .kGfxaAssetMissing "trace_trim_trigger.gfxr".toList
          "trace_asset_file.gfxa".toList] :=
  ⟨by decide, by decide,
    (LoadFileImpl_missing_asset (fun q => some (decide (q = "trace_trim_trigger.rd".toList)))
      (constantOps .kSuccess true) "trace_trim_trigger.gfxr".toList () (by decide)
      (by decide)).2.1⟩

/-- C9 (counterexample): `trace_trim_trigger.gfxr` has the extension
`kGfxrSuffix` and its asset file `trace_asset_file.gfxa` exists, but the status of the
sibling `trace_trim_trigger.rd` cannot be obtained (a symbolic link loop, say), so it is
not found to exist: `std::filesystem::exists` throws on it. The path is then not
classified `kGfxrFile`: nothing is classified and `LoadFileImpl` returns nothing. So it is
not true that for every path with the extension and an existing asset the type is
`kDiveFile` when the sibling is found to exist and `kGfxrFile` when it is not. -/
theorem Classify_gfxr_with_asset_exists_throws :
    extension "trace_trim_trigger.gfxr".toList = kGfxrSuffix ∧
    (fun q => if q = "trace_asset_file.gfxa".toList then some true else none)
      (asset_file_path "trace_trim_trigger.gfxr".toList) = some true ∧
    (fun q => if q = "trace_asset_file.gfxa".toList then some true else none)
      (replace_extension "trace_trim_trigger.gfxr".toList ".rd".toList) ≠ some true ∧
    Classify (fun q => if q = "trace_asset_file.gfxa".toList then some true else none)
      "trace_trim_trigger.gfxr".toList = .threw ∧
    (LoadFileImpl (fun q => if q = "trace_asset_file.gfxa".toList then some true else none)
      (constantOps .kSuccess true) "trace_trim_trigger.gfxr".toList ()).file_type = none ∧
    ¬ (∀ (fs_exists : Path → Option Bool) (p : Path), extension p = kGfxrSuffix →
        fs_exists (asset_file_path p) = some true →
        (fs_exists (replace_extension p ".rd".toList) = some true →
          Classify fs_exists p = .classified .kDiveFile) ∧
        (fs_exists (replace_extension p ".rd".toList) ≠ some true →
          Classify fs_exists p = .classified .kGfxrFile)) := by
  refine ⟨by decide, by decide, by decide, by decide, by decide, fun h => ?_⟩
  have := (h (fun q => if q = "trace_asset_file.gfxa".toList then some true else none)
    "trace_trim_trigger.gfxr".toList (by decide) (by decide)).2 (by decide)
  revert this
  decide

/-- C9 (amended): for every filesystem and path whose extension is `kGfxrSuffix` and for
whose asset path `std::filesystem::exists` returns true, the classified type is
`kDiveFile` when `std::filesystem::exists` returns true for the path with its extension
replaced by `.rd`, and `kGfxrFile` when it returns false for it; and `LoadFileImpl`
returns that type when the Load and Parse steps of that type succeed. -/
theorem Classify_gfxr_with_asset {D : Type} (fs_exists : Path → Option Bool)
    (ops : DataCoreOps D) (p : Path) (d : D) (hext : extension p = kGfxrSuffix)
    (hasset : fs_exists (asset_file_path p) = some true) :
    (fs_exists (replace_extension p ".rd".toList) = some true →
      Classify fs_exists p = .classified .kDiveFile ∧
      ((ops.LoadDiveCaptureData p d).1 = .kSuccess →
        (ops.ParseDiveCaptureData (ops.LoadDiveCaptureData p d).2).1 = true →
        (LoadFileImpl fs_exists ops p d).file_type = some .kDiveFile)) ∧
    (fs_exists (replace_extension p ".rd".toList) = some false →
      Classify fs_exists p = .classified .kGfxrFile ∧
      ((ops.LoadGfxrCaptureData p d).1 = .kSuccess →
        (ops.ParseGfxrCaptureData (ops.LoadGfxrCaptureData p d).2).1 = true →
        (LoadFileImpl fs_exists ops p d).file_type = some .kGfxrFile)) := by
  constructor
  · intro hrd
    have hc : Classify fs_exists p = .classified .kDiveFile := by
      rw [Classify_of_gfxr fs_exists p hext, hasset, hrd]
    refine ⟨hc, fun hl hp => ?_⟩
    simp [LoadFileImpl, hc, hl, hp]
  · intro hrd
    have hc : Classify fs_exists p = .classified .kGfxrFile := by
      rw [Classify_of_gfxr fs_exists p hext, hasset, hrd]
    refine ⟨hc, fun hl hp => ?_⟩
    simp [LoadFileImpl, hc, hl, hp]

/-- Witness for C9: `trace_trim_trigger.gfxr` with `trace_asset_file.gfxa` and
`trace_trim_trigger.rd` present is `kDiveFile`; with only the asset present it is
`kGfxrFile`. -/
theorem Classify_gfxr_with_asset_witness :
    Classify (fun q => some (decide (q ∈ ["trace_asset_file.gfxa".toList,
        "trace_trim_trigger.rd".toList]))) "trace_trim_trigger.gfxr".toList
      = .classified .kDiveFile ∧
    Classify (fun q => some (decide (q ∈ ["trace_asset_file.gfxa".toList])))
        "trace_trim_trigger.gfxr".toList
      = .classified .kGfxrFile :=
  ⟨((Classify_gfxr_with_asset (fun q => some (decide (q ∈ ["trace_asset_file.gfxa".toList,
        "trace_trim_trigger.rd".toList]))) (constantOps .kSuccess true)
      "trace_trim_trigger.gfxr".toList () (by decide) (by decide)).1 (by decide)).1,
    ((Classify_gfxr_with_asset (fun q => some (decide (q ∈ ["trace_asset_file.gfxa".toList])))
      (constantOps .kSuccess true)
      "trace_trim_trigger.gfxr".toList () (by decide) (by decide)).2 (by decide)).1⟩

/-- C10: for every path whose extension is `.rd` or `.dive` the classified type is
`kRdFile` for every filesystem; for every path whose extension is none of `kGfxrSuffix`,
`.rd` and `.dive`, for every filesystem the classified type is `kUnknown`, and
`LoadFileImpl` returns `kUnknown`, emits exactly one signal, the `LoadingFailure` with
reason `kUnsupportedFile` and the input path, and makes no call on the data core. The
filesystem may answer or throw as it likes: `std::filesystem::exists` is not called for
these paths. -/
theorem Classify_primary_or_unknown (D : Type) (p : Path) :
    ((extension p = ".rd".toList ∨ extension p = ".dive".toList) →
      ∀ fs_exists : Path → Option Bool, Classify fs_exists p = .classified .kRdFile) ∧
    ((extension p ≠ kGfxrSuffix ∧ extension p ≠ ".rd".toList ∧ extension p ≠ ".dive".toList) →
      ∀ (fs_exists : Path → Option Bool) (ops : DataCoreOps D) (d : D),
        Classify fs_exists p = .classified .kUnknown ∧
        (LoadFileImpl fs_exists ops p d).file_type = some .kUnknown ∧
        (LoadFileImpl fs_exists ops p d).signals = [.LoadingFailure .kUnsupportedFile p []] ∧
        (LoadFileImpl fs_exists ops p d).calls = [] ∧
        (LoadFileImpl fs_exists ops p d).data_core = d) := by
  constructor
  · intro h fs_exists
    have hne : extension p ≠ kGfxrSuffix := by
      rcases h with h | h <;> rw [h] <;> decide
    rw [Classify_of_not_gfxr fs_exists p hne, if_pos]
    exact h.symm
  · rintro ⟨h1, h2, h3⟩ fs_exists ops d
    have hc : Classify fs_exists p = .classified .kUnknown := by
      rw [Classify_of_not_gfxr fs_exists p h1, if_neg]
      rintro (h | h)
      · exact h3 h
      · exact h2 h
    simp [LoadFileImpl, hc]

/-- Witness for C10: `capture.dive` is `kRdFile` on every filesystem; `capture.RD` and
`capture` (no extension) are `kUnknown`, with one `kUnsupportedFile` failure. -/
theorem Classify_primary_or_unknown_witness :
    (∀ fs_exists : Path → Option Bool,
      Classify fs_exists "capture.dive".toList = .classified .kRdFile) ∧
    (LoadFileImpl (fun _ => some true) (constantOps .kSuccess true)
      "capture.RD".toList ()).signals
      = [.LoadingFailure .kUnsupportedFile "capture.RD".toList []] ∧
    Classify (fun _ => none) "capture".toList = .classified .kUnknown :=
  ⟨(Classify_primary_or_unknown Unit "capture.dive".toList).1 (Or.inr (by decide)),
    ((Classify_primary_or_unknown Unit "capture.RD".toList).2
      ⟨by decide, by decide, by decide⟩ (fun _ => some true)
      (constantOps .kSuccess true) ()).2.2.1,
    ((Classify_primary_or_unknown Unit "capture".toList).2
      ⟨by decide, by decide, by decide⟩ (fun _ => none) (constantOps .kSuccess true) ()).1⟩

/-! ## The asset path -/

/-- C11 (the code at the failing input): `d_trim_trigger/trace.gfxr` has the auxiliary
extension and no `_trim_trigger` in its filename component, but `rfind` searches the whole
path string and finds the trigger in the directory name: the expected asset path is
`d_asset_file/trace.gfxa`. Its directory part differs from the directory part of the
input, and it is not the input with only the extension changed. -/
theorem asset_file_path_rewrites_directory :
    extension "d_trim_trigger/trace.gfxr".toList = kGfxrSuffix ∧
    rfind (filename "d_trim_trigger/trace.gfxr".toList) "_trim_trigger".toList = none ∧
    asset_file_path "d_trim_trigger/trace.gfxr".toList = "d_asset_file/trace.gfxa".toList ∧
    remove_filename (asset_file_path "d_trim_trigger/trace.gfxr".toList)
      ≠ remove_filename "d_trim_trigger/trace.gfxr".toList ∧
    asset_file_path "d_trim_trigger/trace.gfxr".toList
      ≠ replace_extension "d_trim_trigger/trace.gfxr".toList ".gfxa".toList := by
  refine ⟨by decide, by decide, by decide, by decide, by decide⟩

/-! ## The load pipeline -/

/-- C12: for every path that is classified `kUnknown` or fails with a missing asset file,
`LoadFileImpl` makes no call on the data core (no `Load*`, no `Parse*`) and the data
core state after the call is the state before it. -/
theorem LoadFileImpl_unrecognized_leaves_data_core {D : Type} (fs_exists : Path → Option Bool)
    (ops : DataCoreOps D) (p : Path) (d : D)
    (h : Classify fs_exists p = .classified .kUnknown ∨
      ∃ asset, Classify fs_exists p = .asset_missing asset) :
    (LoadFileImpl fs_exists ops p d).calls = [] ∧
    (LoadFileImpl fs_exists ops p d).data_core = d ∧
    (LoadFileImpl fs_exists ops p d).file_type = some .kUnknown := by
  rcases h with h | ⟨asset, h⟩ <;> simp [LoadFileImpl, h]

/-- Witness for C12: `notes.txt` is `kUnknown` and `trace_trim_trigger.gfxr` on an empty
disk misses its asset; a data core that counts its calls stays at 0 in both cases. -/
theorem LoadFileImpl_unrecognized_leaves_data_core_witness :
    (Classify (fun _ => some false) "notes.txt".toList = .classified .kUnknown ∧
      (LoadFileImpl (fun _ => some false) countingOps "notes.txt".toList 0).data_core = 0) ∧
    ((∃ asset, Classify (fun _ => some false) "trace_trim_trigger.gfxr".toList
        = .asset_missing asset) ∧
      (LoadFileImpl (fun _ => some false) countingOps "trace_trim_trigger.gfxr".toList 0).data_core
        = 0) :=
  ⟨⟨by decide,
      (LoadFileImpl_unrecognized_leaves_data_core (fun _ => some false) countingOps
        "notes.txt".toList 0 (Or.inl (by decide))).2.1⟩,
    ⟨⟨_, rfl⟩,
      (LoadFileImpl_unrecognized_leaves_data_core (fun _ => some false) countingOps
        "trace_trim_trigger.gfxr".toList 0 (Or.inr ⟨_, rfl⟩)).2.1⟩⟩

theorem ToLoadFailureReason_of_failure (r : LoadResult) (h : r ≠ .kSuccess) :
    (r = .kFileIoError ∧ ToLoadFailureReason r = .kFileIoError) ∨
    (r = .kCorruptData ∧ ToLoadFailureReason r = .kCorruptData) ∨
    (r = .kVersionError ∧ ToLoadFailureReason r = .kVersionError) := by
  cases r <;> simp [ToLoadFailureReason] at h ⊢

theorem LoadFileImpl_of_recognized {D : Type} (fs_exists : Path → Option Bool)
    (ops : DataCoreOps D) (p : Path) (d : D) (T : LoadedFileType)
    (hc : Classify fs_exists p = .classified T) (hT : T ≠ .kUnknown) :
    LoadFileImpl fs_exists ops p d =
      if (LoadStep ops T p d).1 ≠ .kSuccess then
        { file_type := some .kUnknown
          signals := [.LoadingFailure (ToLoadFailureReason (LoadStep ops T p d).1) p []]
          calls := LoadCall T p
          data_core := (LoadStep ops T p d).2 }
      else if (ParseStep ops T (LoadStep ops T p d).2).1 = false then
        { file_type := some .kUnknown
          signals := [.LoadingFailure .kParseFailure p []]
          calls := LoadCall T p ++ ParseCall T
          data_core := (ParseStep ops T (LoadStep ops T p d).2).2 }
      else
        { file_type := some T
          signals := []
          calls := LoadCall T p ++ ParseCall T
          data_core := (ParseStep ops T (LoadStep ops T p d).2).2 } := by
  cases T with
  | kUnknown => exact absurd rfl hT
  | kDiveFile => simp [LoadFileImpl, hc, LoadStep, ParseStep, LoadCall, ParseCall]
  | kRdFile => simp [LoadFileImpl, hc, LoadStep, ParseStep, LoadCall, ParseCall]
  | kGfxrFile => simp [LoadFileImpl, hc, LoadStep, ParseStep, LoadCall, ParseCall]

/-- C13: for every path classified as a recognized type `T` (`kDiveFile`, `kRdFile` or
`kGfxrFile`), `LoadFileImpl` calls the Load step of `T` first and no step of another
type. When Load does not return `kSuccess`, Parse is not called, `kUnknown` is returned
and exactly one `LoadingFailure` is emitted, with the reason of the same name as the load
result (`kFileIoError`, `kCorruptData` or `kVersionError`). When Load returns `kSuccess`,
the Parse step of `T` is called next, on the state Load left; if it returns false,
`kUnknown` is returned with exactly one `LoadingFailure` of reason `kParseFailure`; if
it returns true, `T` is returned and no signal is emitted. So `T` is returned without
failure if and only if Load returned `kSuccess` and Parse returned true. -/
theorem LoadFileImpl_recognized_type {D : Type} (fs_exists : Path → Option Bool)
    (ops : DataCoreOps D) (p : Path) (d : D) (T : LoadedFileType)
    (hc : Classify fs_exists p = .classified T) (hT : T ≠ .kUnknown) :
    ((LoadStep ops T p d).1 ≠ .kSuccess →
      (LoadFileImpl fs_exists ops p d).calls = LoadCall T p ∧
      (LoadFileImpl fs_exists ops p d).data_core = (LoadStep ops T p d).2 ∧
      (LoadFileImpl fs_exists ops p d).file_type = some .kUnknown ∧
      (LoadFileImpl fs_exists ops p d).signals
        = [.LoadingFailure (ToLoadFailureReason (LoadStep ops T p d).1) p []] ∧
      (((LoadStep ops T p d).1 = .kFileIoError ∧
          ToLoadFailureReason (LoadStep ops T p d).1 = .kFileIoError) ∨
        ((LoadStep ops T p d).1 = .kCorruptData ∧
          ToLoadFailureReason (LoadStep ops T p d).1 = .kCorruptData) ∨
        ((LoadStep ops T p d).1 = .kVersionError ∧
          ToLoadFailureReason (LoadStep ops T p d).1 = .kVersionError))) ∧
    ((LoadStep ops T p d).1 = .kSuccess →
      (LoadFileImpl fs_exists ops p d).calls = LoadCall T p ++ ParseCall T ∧
      (LoadFileImpl fs_exists ops p d).data_core
        = (ParseStep ops T (LoadStep ops T p d).2).2 ∧
      ((ParseStep ops T (LoadStep ops T p d).2).1 = false →
        (LoadFileImpl fs_exists ops p d).file_type = some .kUnknown ∧
        (LoadFileImpl fs_exists ops p d).signals = [.LoadingFailure .kParseFailure p []]) ∧
      ((ParseStep ops T (LoadStep ops T p d).2).1 = true →
        (LoadFileImpl fs_exists ops p d).file_type = some T ∧
        (LoadFileImpl fs_exists ops p d).signals = [])) ∧
    (((LoadFileImpl fs_exists ops p d).file_type = some T ∧
        (LoadFileImpl fs_exists ops p d).signals = []) ↔
      ((LoadStep ops T p d).1 = .kSuccess ∧
        (ParseStep ops T (LoadStep ops T p d).2).1 = true)) ∧
    (LoadCall T p ≠ [] ∧ ParseCall T ≠ []) := by
  rw [LoadFileImpl_of_recognized fs_exists ops p d T hc hT]
  refine ⟨fun hl => ?_, fun hl => ?_, ?_, ?_⟩
  · rw [if_pos hl]
    exact ⟨rfl, rfl, rfl, rfl, ToLoadFailureReason_of_failure _ hl⟩
  · rw [if_neg (not_not.mpr hl)]
    refine ⟨?_, ?_, fun hp => ?_, fun hp => ?_⟩
    · split <;> rfl
    · split <;> rfl
    · rw [if_pos hp]; exact ⟨rfl, rfl⟩
    · rw [if_neg (by simp [hp])]; exact ⟨rfl, rfl⟩
  · by_cases hl : (LoadStep ops T p d).1 = .kSuccess
    · rw [if_neg (not_not.mpr hl)]
      cases hp : (ParseStep ops T (LoadStep ops T p d).2).1
      · simp [hl, hT.symm]
      · simp [hl]
    · rw [if_pos hl]
      simp [hl]
  · cases T <;> simp [LoadCall, ParseCall] at hT ⊢

/-- Witness for C13: `capture.rd` is `kRdFile`; with a data core that accepts it the calls
are `LoadPm4CaptureData` then `ParsePm4CaptureData` and `kRdFile` is returned; with a data
core whose Load returns `kCorruptData` the single failure has reason `kCorruptData`; with
one whose Parse returns false the single failure has reason `kParseFailure`. -/
theorem LoadFileImpl_recognized_type_witness :
    Classify (fun _ => some false) "capture.rd".toList = .classified .kRdFile ∧
    (LoadFileImpl (fun _ => some false) countingOps "capture.rd".toList 0).calls
      = [.LoadPm4CaptureData "capture.rd".toList, .ParsePm4CaptureData] ∧
    (LoadFileImpl (fun _ => some false) countingOps "capture.rd".toList 0).file_type
      = some .kRdFile ∧
    (LoadFileImpl (fun _ => some false) (constantOps .kCorruptData true)
      "capture.rd".toList ()).signals
      = [.LoadingFailure .kCorruptData "capture.rd".toList []] ∧
    (LoadFileImpl (fun _ => some false) (constantOps .kSuccess false)
      "capture.rd".toList ()).signals
      = [.LoadingFailure .kParseFailure "capture.rd".toList []] :=
  ⟨by decide,
    ((LoadFileImpl_recognized_type (fun _ => some false) countingOps "capture.rd".toList 0 .kRdFile
      (by decide) (by decide)).2.1 (by decide)).1,
    (((LoadFileImpl_recognized_type (fun _ => some false) countingOps "capture.rd".toList 0 .kRdFile
      (by decide) (by decide)).2.1 (by decide)).2.2.2 (by decide)).1,
    ((LoadFileImpl_recognized_type (fun _ => some false) (constantOps .kCorruptData true)
      "capture.rd".toList () .kRdFile (by decide) (by decide)).1 (by decide)).2.2.2.1,
    (((LoadFileImpl_recognized_type (fun _ => some false) (constantOps .kSuccess false)
      "capture.rd".toList () .kRdFile (by decide) (by decide)).2.1 (by decide)).2.2.1
      (by decide)).2⟩

/-! ## The command runner -/

theorem ReadLoop_cancelled (command : List Char) (cancelled : Nat → Bool) (k : Nat) :
    ∀ (reads : List ReadResult) (i : Nat) (output : List Char),
      (∀ j, j < k → cancelled (i + j) = false) → cancelled (i + k) = true →
      k ≤ reads.length → (∀ r ∈ reads.take k, r.continues = true) →
      ReadLoop command cancelled reads i output
        = some { result := .error .kCancelled "cancelled".toList, reads := i + k } := by
  induction k with
  | zero =>
    intro reads i output _ hk _ _
    have hk' : cancelled i = true := by simpa using hk
    cases reads <;> simp [ReadLoop, hk']
  | succ k ih =>
    intro reads i output hbefore hk hlen hcont
    have h0 : cancelled i = false := by simpa using hbefore 0 (Nat.succ_pos k)
    cases reads with
    | nil => simp at hlen
    | cons r rest =>
      have hr : r.continues = true := hcont r (by simp)
      have hrest := ih rest (i + 1) 
      have hb : ∀ j, j < k → cancelled (i + 1 + j) = false := fun j hj => by
        have := hbefore (j + 1) (Nat.succ_lt_succ hj)
        rwa [show i + 1 + j = i + (j + 1) by omega]
      have hk2 : cancelled (i + 1 + k) = true := by
        rwa [show i + 1 + k = i + (k + 1) by omega]
      have hlen2 : k ≤ rest.length := by simpa using hlen
      have hcont2 : ∀ r ∈ rest.take k, r.continues = true := fun x hx =>
        hcont x (by simp [List.take_succ_cons, hx])
      cases r with
      | data chunk =>
        have hc : 0 < chunk.length := by simpa [ReadResult.continues] using hr
        simp only [ReadLoop, h0, hc]
        rw [hrest (output ++ chunk) hb hk2 hlen2 hcont2]
        simp; omega
      | would_block =>
        simp only [ReadLoop, h0]
        rw [hrest output hb hk2 hlen2 hcont2]
        simp; omega
      | eof => simp [ReadResult.continues] at hr
      | error e => simp [ReadResult.continues] at hr

/-- C14 (the code at the failing input): a spawned process, a context that is not null and
never cancelled, reads that deliver `oops\n` and then end of stream, and `pclose`
returning the non-zero status 256. On the non-blocking path `RunCommand` returns Ok with
output `oops`: the status passed to `LogCommand` is 0 and the value of `pclose` is
dropped. The same run with a null context (blocking path) returns the failure whose
message carries 256 and the output. On the non-blocking path a read error with `errno` 5
and exit status 0 returns a failure. For every run on the non-blocking path the result
does not depend on what `pclose` returns. -/
theorem RunCommand_nonblocking_ignores_exit_status :
    RunCommand "false".toList
        { popen_ok := true, context_null := false, fileno_ok := true,
          cancelled := fun _ => false, reads := [.data "oops\n".toList, .eof],
          pclose_status := 256 }
      = some ⟨.ok "oops".toList, 2, true⟩ ∧
    RunCommand "false".toList
        { popen_ok := true, context_null := true, fileno_ok := true,
          cancelled := fun _ => false, reads := [.data "oops\n".toList, .eof],
          pclose_status := 256 }
      = some ⟨.error .kUnknown
          "Command `false` failed with return code 256, error: oops\n".toList, 0, true⟩ ∧
    RunCommand "true".toList
        { popen_ok := true, context_null := false, fileno_ok := true,
          cancelled := fun _ => false, reads := [.error 5], pclose_status := 0 }
      = some ⟨.error .kUnknown
          "Command `true` failed with return code 5, error: \n".toList, 1, true⟩ ∧
    (∀ (command : List Char) (run : ProcessRun) (a b : Int),
      RunCommand command
          { run with popen_ok := true, context_null := false, fileno_ok := true,
                     pclose_status := a }
        = RunCommand command
          { run with popen_ok := true, context_null := false, fileno_ok := true,
                     pclose_status := b }) := by
  refine ⟨by decide, by decide, by decide, fun command run a b => ?_⟩
  simp [RunCommand]

/-- C15: in a run of the non-blocking read loop (context not null, descriptor obtained)
whose first iteration with `Cancelled()` true is iteration `k`, reached because the `k`
reads before it delivered data or would block: `ReadCommandOutputNonBlocking` returns the
status with code `kCancelled` after exactly `k` reads, so no read is made at or after
iteration `k` and neither an Ok output nor a failure of `LogCommand` is returned,
whatever was read before; and `RunCommand` returns that status with `pclose` called. In
particular, when the context is cancelled before the call, the result is `kCancelled`
with zero reads, for any pipe. -/
theorem ReadCommandOutputNonBlocking_cancelled (command : List Char) (cancelled : Nat → Bool)
    (reads : List ReadResult) (k : Nat)
    (hbefore : ∀ j, j < k → cancelled j = false) (hk : cancelled k = true)
    (hlen : k ≤ reads.length) (hcont : ∀ r ∈ reads.take k, r.continues = true) :
    ReadCommandOutputNonBlocking command cancelled reads
      = some ⟨.error .kCancelled "cancelled".toList, k⟩ ∧
    (∀ pclose_status : Int,
      RunCommand command
          { popen_ok := true, context_null := false, fileno_ok := true,
            cancelled := cancelled, reads := reads, pclose_status := pclose_status }
        = some ⟨.error .kCancelled "cancelled".toList, k, true⟩) ∧
    (∀ (c0 : Nat → Bool) (rs : List ReadResult), c0 0 = true →
      ReadCommandOutputNonBlocking command c0 rs
        = some ⟨.error .kCancelled "cancelled".toList, 0⟩) := by
  have h : ReadCommandOutputNonBlocking command cancelled reads
      = some ⟨.error .kCancelled "cancelled".toList, k⟩ := by
    have := ReadLoop_cancelled command cancelled k reads 0 []
      (fun j hj => by simpa using hbefore j hj) (by simpa using hk) hlen hcont
    simpa [ReadCommandOutputNonBlocking] using this
  refine ⟨h, fun st => ?_, fun c0 rs h0 => ?_⟩
  · simp [RunCommand, h]
  · have := ReadLoop_cancelled command c0 0 rs 0 []
      (fun j hj => absurd hj (Nat.not_lt_zero j)) (by simpa using h0) (Nat.zero_le _)
      (fun r hr => by simp at hr)
    simpa [ReadCommandOutputNonBlocking] using this

/-- Witness for C15: the context is cancelled at the third poll, after a chunk and a read
that would block; the result is `kCancelled` after two reads, although the pipe would
have delivered more data and end of stream. -/
theorem ReadCommandOutputNonBlocking_cancelled_witness :
    ReadCommandOutputNonBlocking "sleep 10".toList (fun i => decide (2 ≤ i))
        [.data "par".toList, .would_block, .data "tial".toList, .eof]
      = some ⟨.error .kCancelled "cancelled".toList, 2⟩ ∧
    ReadCommandOutputNonBlocking "sleep 10".toList (fun _ => true) [.data "x".toList, .eof]
      = some ⟨.error .kCancelled "cancelled".toList, 0⟩ :=
  ⟨(ReadCommandOutputNonBlocking_cancelled "sleep 10".toList (fun i => decide (2 ≤ i))
      [.data "par".toList, .would_block, .data "tial".toList, .eof] 2
      (by decide) (by decide) (by decide) (by decide)).1,
    (ReadCommandOutputNonBlocking_cancelled "sleep 10".toList (fun i => decide (2 ≤ i))
      [.data "par".toList, .would_block, .data "tial".toList, .eof] 2
      (by decide) (by decide) (by decide) (by decide)).2.2 (fun _ => true)
      [.data "x".toList, .eof] rfl⟩

/-- C17 (the code at the failing input): for a container whose stored `.gfxa` path is
`capture.gfxa` and whose stored `.gfxr` path is `capture.gfxr`, `GetGfxaFilePath()` returns
`capture.gfxr`: not the stored `m_gfxa_file_path`, and the same as `GetGfxrFilePath()`.
For every container `GetGfxaFilePath()` equals `GetGfxrFilePath()`. -/
theorem GetGfxaFilePath_returns_gfxr_path :
    DiveFileContainer.GetGfxaFilePath
        { m_capture_dir := [], m_temp_dir := [], m_source_file_path := [],
          m_main_file_path := [], m_rd_file_path := "capture.rd".toList,
          m_gfxa_file_path := "capture.gfxa".toList,
          m_gfxr_file_path := "capture.gfxr".toList }
      = "capture.gfxr".toList ∧
    DiveFileContainer.GetGfxaFilePath
        { m_capture_dir := [], m_temp_dir := [], m_source_file_path := [],
          m_main_file_path := [], m_rd_file_path := "capture.rd".toList,
          m_gfxa_file_path := "capture.gfxa".toList,
          m_gfxr_file_path := "capture.gfxr".toList }
      ≠ "capture.gfxa".toList ∧
    (∀ c : DiveFileContainer, c.GetGfxaFilePath = c.GetGfxrFilePath) := by
  refine ⟨by decide, by decide, fun c => rfl⟩

/-! ## Nesting guards -/

namespace NestingGuard

/-- The invariant of nested guards on one flag: either no guard is alive and the flag is
inactive, or the flag is active and the guards alive report, innermost first, `true` up to
the outermost, which reports `false`. -/
theorem Scope.step_invariant (s : Scope) (op : Op)
    (h : (s.alive = [] ∧ s.flag.active = false) ∨
      (s.flag.active = true ∧
        ∃ n, s.alive.map AlreadyActive = List.replicate n true ++ [false])) :
    ((s.step op).alive = [] ∧ (s.step op).flag.active = false) ∨
      ((s.step op).flag.active = true ∧
        ∃ n, (s.step op).alive.map AlreadyActive = List.replicate n true ++ [false]) := by
  obtain ⟨flag, alive⟩ := s
  obtain ⟨active⟩ := flag
  cases op with
  | enter =>
    rcases h with ⟨h1, h2⟩ | ⟨h2, n, hn⟩
    · simp only at h1 h2
      subst h1 h2
      right
      exact ⟨by simp [Scope.step, construct], 0, by simp [Scope.step, construct, AlreadyActive]⟩
    · simp only at h2 hn
      subst h2
      right
      refine ⟨by simp [Scope.step, construct], n + 1, ?_⟩
      simp only [Scope.step, construct, List.map_cons, hn]
      simp [AlreadyActive, List.replicate_succ]
  | leave =>
    rcases h with ⟨h1, h2⟩ | ⟨h2, n, hn⟩
    · simp only at h1 h2
      subst h1 h2
      left
      simp [Scope.step]
    · simp only at h2 hn
      subst h2
      cases alive with
      | nil => simp at hn
      | cons g rest =>
        cases n with
        | zero =>
          simp only [List.map_cons, List.replicate_zero, List.nil_append, List.cons.injEq,
            List.map_eq_nil_iff] at hn
          left
          simp [Scope.step, destroy, hn.2, show g.m_already_active = false from hn.1]
        | succ m =>
          simp only [List.map_cons, List.replicate_succ, List.cons_append,
            List.cons.injEq] at hn
          right
          exact ⟨by simp [Scope.step, destroy, show g.m_already_active = true from hn.1],
            m, by simpa [Scope.step] using hn.2⟩

theorem Scope.run_invariant (ops : List Op) :
    ((Scope.run ops).alive = [] ∧ (Scope.run ops).flag.active = false) ∨
      ((Scope.run ops).flag.active = true ∧
        ∃ n, (Scope.run ops).alive.map AlreadyActive = List.replicate n true ++ [false]) := by
  have key : ∀ (ops : List Op) (s : Scope),
      ((s.alive = [] ∧ s.flag.active = false) ∨
        (s.flag.active = true ∧
          ∃ n, s.alive.map AlreadyActive = List.replicate n true ++ [false])) →
      (((ops.foldl Scope.step s).alive = [] ∧ (ops.foldl Scope.step s).flag.active = false) ∨
        ((ops.foldl Scope.step s).flag.active = true ∧
          ∃ n, (ops.foldl Scope.step s).alive.map AlreadyActive
            = List.replicate n true ++ [false])) := by
    intro ops
    induction ops with
    | nil => intro s h; exact h
    | cons op rest ih => intro s h; exact ih (s.step op) (Scope.step_invariant s op h)
  exact key ops _ (Or.inl ⟨rfl, rfl⟩)

/-- C18: a guard constructed on an inactive flag sets it active and reports
`AlreadyActive() = false`, and its destruction resets the flag to inactive; a guard
constructed on an active flag leaves it active and reports `AlreadyActive() = true`, and
its destruction leaves the flag as it is. After every properly nested sequence of
constructions and destructions from an inactive flag, the flag is active if and only if
at least one guard is alive, and the guards alive report, outermost first, `false` for
the outermost and `true` for all others. -/
theorem nested_guards_flag (ops : List Op) :
    (construct { active := false }).2 = { active := true } ∧
    (construct { active := false }).1.AlreadyActive = false ∧
    (∀ flag : Flag, destroy (construct { active := false }).1 flag = { active := false }) ∧
    (construct { active := true }).2 = { active := true } ∧
    (construct { active := true }).1.AlreadyActive = true ∧
    (∀ flag : Flag, destroy (construct { active := true }).1 flag = flag) ∧
    ((Scope.run ops).flag.active = true ↔ (Scope.run ops).alive ≠ []) ∧
    (Scope.run ops).reports
      = if (Scope.run ops).alive.length = 0 then []
        else false :: List.replicate ((Scope.run ops).alive.length - 1) true := by
  refine ⟨rfl, rfl, fun _ => rfl, rfl, rfl, fun _ => rfl, ?_, ?_⟩
  · rcases Scope.run_invariant ops with ⟨h1, h2⟩ | ⟨h2, n, hn⟩
    · simp [h1, h2]
    · have hne : (Scope.run ops).alive ≠ [] := by
        intro h
        rw [h] at hn
        simp at hn
      simp [h2, hne]
  · rcases Scope.run_invariant ops with ⟨h1, h2⟩ | ⟨h2, n, hn⟩
    · simp [Scope.reports, h1]
    · have hlen : (Scope.run ops).alive.length = n + 1 := by
        have := congrArg List.length hn
        simpa using this
      simp only [Scope.reports, hn, hlen]
      simp

end NestingGuard

/-! ## Cancelled stats jobs and the order of loads -/

namespace CaptureManager

variable {Stats D : Type}

theorem CancelledStatsHasPending_init [Inhabited Stats] (d : D) :
    CancelledStatsHasPending (init d : CaptureManager Stats D) := by
  intro c hc
  simp [init] at hc

theorem CancelledStatsHasPending_step (e : Event Stats D) {s : CaptureManager Stats D}
    (hI : Inv s) (hP : CancelledStatsHasPending s) : CancelledStatsHasPending (step s e) := by
  cases e with
  | LoadFile p =>
    cases hw : s.m_working with
    | true =>
      intro c _ _
      simp [step, LoadFile_of_working p s hw]
    | false =>
      have hq := hI.queue_nil hw
      intro c hc _
      simp [step, LoadFile_of_idle p s hw, hq] at hc
  | GatherTraceStats =>
    cases hw : s.m_working with
    | true => simpa [step, GatherTraceStats, hw] using hP
    | false =>
      have hq := hI.queue_nil hw
      intro c hc hcan
      simp only [step, GatherTraceStats_of_idle s hw, hq, List.nil_append,
        List.mem_singleton, Job.stats.injEq] at hc
      subst hc
      simp [step, GatherTraceStats_of_idle s hw, Cancelled, List.getD_eq_getElem?_getD,
        List.getElem?_append_right, CancelIfNotNull_length] at hcan
  | WorkerCompletes env =>
    cases hw : s.m_working with
    | false =>
      have hq := hI.queue_nil hw
      simpa [step, WorkerCompletes, hq] using hP
    | true =>
      obtain ⟨j, hq⟩ := hI.queue_single hw
      intro c hc _
      cases j with
      | load p0 =>
        obtain ⟨t0, _, hwc⟩ := WorkerCompletes_load_eq env s p0 [] hq
        simp only [step, hwc] at hc
        cases hp : s.m_pending_capture_file with
        | none =>
          rw [OnLoadFileDone_of_no_pending _ _ (by simp [hp])] at hc
          simp at hc
        | some p =>
          rw [OnLoadFileDone_of_pending _ p _ (by simp [hp])] at hc
          simp at hc
      | stats c0 =>
        simp only [step, WorkerCompletes, hq] at hc
        cases hp : s.m_pending_capture_file with
        | none =>
          rw [OnGatherTraceStatsDone_of_no_pending _ (by simp [hp])] at hc
          simp at hc
        | some p =>
          rw [OnGatherTraceStatsDone_of_pending p _ (by simp [hp])] at hc
          simp at hc

theorem CancelledStatsHasPending_foldl (events : List (Event Stats D))
    {s : CaptureManager Stats D} (hI : Inv s) (hP : CancelledStatsHasPending s) :
    CancelledStatsHasPending (events.foldl step s) := by
  induction events generalizing s with
  | nil => exact hP
  | cons e es ih => exact ih (Inv_step e hI) (CancelledStatsHasPending_step e hI hP)

theorem CancelledStatsHasPending_run [Inhabited Stats] (d : D) (events : List (Event Stats D)) :
    CancelledStatsHasPending (run d events : CaptureManager Stats D) :=
  CancelledStatsHasPending_foldl events (Inv_init d) (CancelledStatsHasPending_init d)

theorem WorkerCompletes_stats (env : WorkerEnv Stats D) (s : CaptureManager Stats D)
    (c : Nat) (rest : List Job) (hq : s.worker_queue = .stats c :: rest) :
    (WorkerCompletes env s).signals
      = if s.m_pending_capture_file.isNone then s.signals ++ [.TraceStatsUpdated]
        else s.signals := by
  simp only [WorkerCompletes, hq]
  cases hp : s.m_pending_capture_file with
  | none => rw [OnGatherTraceStatsDone_of_no_pending _ (by simp [hp])]; simp
  | some p => rw [OnGatherTraceStatsDone_of_pending p _ (by simp [hp])]; simp

/-- C19: in every state reached by a run in which a stats job with token `c` is the job
in flight: if `c` is cancelled when the job completes, the completion emits no signal, so
no `TraceStatsUpdated`; the completion emits `TraceStatsUpdated` (and nothing else) if and
only if no load is pending, and emits nothing when a load is pending; and a step that
cancels `c` is a call `LoadFile(p)` made while `m_working` is true, after which the
pending slot holds `p`. -/
theorem cancelled_stats_job_emits_nothing [Inhabited Stats] (d : D)
    (events : List (Event Stats D)) (env : WorkerEnv Stats D) (c : Nat) (rest : List Job)
    (hq : (run d events).worker_queue = .stats c :: rest) :
    ((run d events).Cancelled c = true →
      (WorkerCompletes env (run d events)).signals = (run d events).signals) ∧
    ((WorkerCompletes env (run d events)).signals
        = (run d events).signals ++ [.TraceStatsUpdated] ↔
      (run d events).m_pending_capture_file = none) ∧
    ((run d events).m_pending_capture_file ≠ none →
      (WorkerCompletes env (run d events)).signals = (run d events).signals) ∧
    (∀ e : Event Stats D, (run d events).Cancelled c = false →
      (step (run d events) e).Cancelled c = true →
      (run d events).m_working = true ∧
        ∃ p, e = .LoadFile p ∧ (step (run d events) e).m_pending_capture_file = some p) := by
  have hI := Inv_run d events
  have hP := CancelledStatsHasPending_run d events
  have hs := WorkerCompletes_stats env (run d events) c rest hq
  have hw : (run d events).m_working = true := by
    cases hw : (run d events).m_working with
    | true => rfl
    | false => rw [hI.queue_nil hw] at hq; simp at hq
  refine ⟨fun hcan => ?_, ?_, fun hp => ?_, fun e h0 h1 => ?_⟩
  · have := hP c (by simp [hq]) hcan
    rw [hs]
    cases hp : (run d events).m_pending_capture_file with
    | none => simp [hp] at this
    | some p => simp
  · rw [hs]
    cases hp : (run d events).m_pending_capture_file with
    | none => simp
    | some p => simp
  · rw [hs]
    cases hp2 : (run d events).m_pending_capture_file with
    | none => exact absurd hp2 hp
    | some p => simp
  · refine ⟨hw, ?_⟩
    cases e with
    | LoadFile p =>
      refine ⟨p, rfl, ?_⟩
      simp [step, LoadFile_of_working p _ hw]
    | GatherTraceStats =>
      simp [step, GatherTraceStats, hw, h0] at h1
    | WorkerCompletes env2 =>
      exfalso
      simp only [step, WorkerCompletes, hq] at h1
      cases hp : (run d events).m_pending_capture_file with
      | none =>
        rw [OnGatherTraceStatsDone_of_no_pending _ (by simp [hp])] at h1
        simp [Cancelled] at h1 h0
        rw [h0] at h1
        exact Bool.false_ne_true h1
      | some p =>
        rw [OnGatherTraceStatsDone_of_pending p _ (by simp [hp])] at h1
        simp [Cancelled] at h1 h0
        rw [h0] at h1
        exact Bool.false_ne_true h1

/-- Witness for C19: a stats job is started, `LoadFile("a.rd")` cancels its token 0 and
fills the pending slot, and the completion of the stats job emits nothing. -/
theorem cancelled_stats_job_emits_nothing_witness :
    (run () [.GatherTraceStats, .LoadFile "a.rd".toList] : CaptureManager Nat Unit).worker_queue
      = .stats 0 :: [] ∧
    (run () [.GatherTraceStats, .LoadFile "a.rd".toList] : CaptureManager Nat Unit).Cancelled 0
      = true ∧
    (WorkerCompletes (simpleEnv [] 0)
      (run () [.GatherTraceStats, .LoadFile "a.rd".toList])).signals = [] :=
  ⟨by decide, by decide,
    (cancelled_stats_job_emits_nothing () [.GatherTraceStats, .LoadFile "a.rd".toList]
      (simpleEnv [] 0) 0 [] (by decide)).1 (by decide)⟩

/-- C20 (the code at the failing input): `GatherTraceStats()`, then `LoadFile(a)` while the
stats job runs, then completion of the stats job, then `LoadFile(b)`, then completion of
the load of `b`. `LoadFile(a)` is called before `LoadFile(b)` and load jobs for both are
dispatched, but the job for `b` is dispatched before the job for `a`: `a` stays in the
pending slot when the stats job completes, `b` is dispatched at once by the idle
coordinator, and `a` is dispatched when the load of `b` completes. -/
theorem later_load_dispatched_first (env : WorkerEnv Unit Unit) (a b : Path) :
    (run () [.GatherTraceStats, .LoadFile a, .WorkerCompletes env, .LoadFile b]).dispatched
      = [.stats 0, .load b] ∧
    (run () [.GatherTraceStats, .LoadFile a, .WorkerCompletes env,
      .LoadFile b]).m_pending_capture_file = some a ∧
    (run () [.GatherTraceStats, .LoadFile a, .WorkerCompletes env, .LoadFile b,
      .WorkerCompletes env]).dispatched = [.stats 0, .load b, .load a] := by
  refine ⟨rfl, rfl, ?_⟩
  obtain ⟨t, -, hwc⟩ := WorkerCompletes_load_eq env
    (run () [.GatherTraceStats, .LoadFile a, .WorkerCompletes env, .LoadFile b]) b [] rfl
  show (WorkerCompletes env
    (run () [.GatherTraceStats, .LoadFile a, .WorkerCompletes env, .LoadFile b])).dispatched
      = [.stats 0, .load b, .load a]
  rw [hwc]
  rfl

end CaptureManager

end Dive
